import Mathlib

/-!
Verification development for the osmdbt-wrapper job-execution engine.

The definitions below are a shallow embedding of the TypeScript sources:
pure utility functions (src/common/util.ts) become Lean functions on
lists of characters and natural numbers, and the job engine
(src/osmdbt/osmdbtService.ts, the class exposing executeJob, together
with src/fs/fsRepository.ts, the S3Manager exposing getObject/putObject,
and src/executables) becomes an explicit state-passing interpreter over
a world of a local file map, a remote object map and an event trace,
with external outcomes supplied by an environment of oracles.
-/

namespace Osmdbt

/-- Text is modelled as a list of characters. -/
abbrev Str := List Char

/-! ## Sequence-number extraction (src/common/util.ts, extractSequenceNumber)

The source matches the regular expression sequenceNumber=\d+ against the
file content, takes the first (leftmost, greedy) match, splits it on the
equals sign and returns element 1, i.e. the digit run. -/

/-- The literal part of the regular expression sequenceNumber=\d+. -/
def litSeq : Str := ("sequenceNumber=").data

/-- Strip an expected literal from the front of a string: some remainder
when the string starts with the literal, none otherwise. -/
def dropLit : Str → Str → Option Str
  | [], s => some s
  | _ :: _, [] => none
  | a :: as, b :: bs => if a = b then dropLit as bs else none

/-- Leftmost, greedy match of the regular expression sequenceNumber=\d+ :
returns the whole matched substring (the literal followed by a maximal
nonempty digit run), scanning start positions left to right exactly as the
JavaScript regex engine does. -/
def jsMatchSeq : Str → Option Str
  | [] => none
  | c :: rest =>
    match dropLit litSeq (c :: rest) with
    | some after =>
      if after.takeWhile Char.isDigit = [] then jsMatchSeq rest
      else some (litSeq ++ after.takeWhile Char.isDigit)
    | none => jsMatchSeq rest

/-- Split a string on the equals character, as JavaScript split does. -/
def splitEq : Str → List Str
  | [] => [[]]
  | c :: rest =>
    let r := splitEq rest
    if c = '=' then [] :: r
    else
      match r with
      | [] => [[c]]
      | h :: t => (c :: h) :: t

/-- src/common/util.ts extractSequenceNumber: match the regex; on failure
the source throws (modelled as none); on success return match[0]
split on the equals sign, element 1. -/
def extractSequenceNumber (content : Str) : Option Str :=
  match jsMatchSeq content with
  | none => none
  | some m => some ((splitEq m).getD 1 [])

/-- Specification-side predicate: position j of the text starts an
occurrence of the literal followed by at least one digit, i.e. the regex
sequenceNumber=\d+ matches at position j. -/
def matchAt (l : Str) (j : Nat) : Prop :=
  ∃ d post, l.drop j = litSeq ++ d :: post ∧ d.isDigit = true

/-- Specification-side predicate: the text contains a substring matching
the regex sequenceNumber=\d+. -/
def hasSeqMatch (l : Str) : Prop := ∃ j, matchAt l j

theorem dropLit_eq_some {L s t : Str} : dropLit L s = some t ↔ s = L ++ t := by
  induction L generalizing s with
  | nil => simp [dropLit]
  | cons a as ih =>
    cases s with
    | nil => simp [dropLit]
    | cons b bs =>
      by_cases hab : a = b
      · subst hab
        simp [dropLit, ih]
      · rw [dropLit, if_neg hab]
        constructor
        · intro h
          exact Option.noConfusion h
        · intro h
          injection h with h1 _
          exact absurd h1.symm hab

theorem takeWhile_mem {p : Char → Bool} {l : Str} {c : Char}
    (h : c ∈ l.takeWhile p) : p c = true := by
  induction l with
  | nil => simp [List.takeWhile] at h
  | cons a as ih =>
    by_cases ha : p a
    · rw [List.takeWhile_cons_of_pos ha] at h
      rcases List.mem_cons.mp h with h | h
      · exact h ▸ ha
      · exact ih h
    · rw [List.takeWhile_cons_of_neg ha] at h
      simp at h

theorem dropWhile_head_neg {p : Char → Bool} {l : Str} {c : Char} {cs : Str}
    (h : l.dropWhile p = c :: cs) : p c = false := by
  induction l with
  | nil => simp [List.dropWhile] at h
  | cons a as ih =>
    by_cases ha : p a
    · rw [List.dropWhile_cons_of_pos ha] at h
      exact ih h
    · rw [List.dropWhile_cons_of_neg ha] at h
      cases h
      exact Bool.of_not_eq_true ha

theorem matchAt_succ {c : Char} {rest : Str} {j : Nat} :
    matchAt (c :: rest) (j + 1) ↔ matchAt rest j := by
  simp [matchAt, List.drop]

theorem matchAt_zero_of_dropLit_none {l : Str}
    (h : dropLit litSeq l = none) : ¬ matchAt l 0 := by
  rintro ⟨d, post, hd, _⟩
  rw [List.drop_zero] at hd
  have : dropLit litSeq l = some (d :: post) := dropLit_eq_some.mpr hd
  rw [h] at this
  exact Option.noConfusion this

theorem matchAt_zero_of_no_digit {l after : Str}
    (h : dropLit litSeq l = some after)
    (hnil : after.takeWhile Char.isDigit = []) : ¬ matchAt l 0 := by
  rintro ⟨d, post, hd, hdig⟩
  rw [List.drop_zero] at hd
  have h2 : dropLit litSeq l = some (d :: post) := dropLit_eq_some.mpr hd
  rw [h] at h2
  cases h2
  rw [List.takeWhile_cons_of_pos hdig] at hnil
  exact List.noConfusion hnil

/-- Failure characterisation of the regex scanner: no match is found if
and only if no start position matches. -/
theorem jsMatchSeq_eq_none_iff (l : Str) :
    jsMatchSeq l = none ↔ ∀ j, ¬ matchAt l j := by
  induction l with
  | nil =>
    simp only [jsMatchSeq, true_iff]
    rintro j ⟨d, post, hd, _⟩
    rw [List.drop_nil] at hd
    have hlit : litSeq ++ d :: post = 's' :: (("equenceNumber=").data ++ d :: post) := rfl
    rw [hlit] at hd
    exact List.noConfusion hd
  | cons c rest ih =>
    constructor
    · intro h j
      rw [jsMatchSeq] at h
      cases hdl : dropLit litSeq (c :: rest) with
      | none =>
        rw [hdl] at h
        cases j with
        | zero => exact matchAt_zero_of_dropLit_none hdl
        | succ k => exact fun hm => (ih.mp h) k (matchAt_succ.mp hm)
      | some after =>
        rw [hdl] at h
        simp only at h
        by_cases hnil : after.takeWhile Char.isDigit = []
        · rw [if_pos hnil] at h
          cases j with
          | zero => exact matchAt_zero_of_no_digit hdl hnil
          | succ k => exact fun hm => (ih.mp h) k (matchAt_succ.mp hm)
        · rw [if_neg hnil] at h
          exact Option.noConfusion h
    · intro h
      rw [jsMatchSeq]
      cases hdl : dropLit litSeq (c :: rest) with
      | none =>
        exact ih.mpr fun j hm => h (j + 1) (matchAt_succ.mpr hm)
      | some after =>
        simp only
        by_cases hnil : after.takeWhile Char.isDigit = []
        · rw [if_pos hnil]
          exact ih.mpr fun j hm => h (j + 1) (matchAt_succ.mpr hm)
        · exfalso
          cases hts : after.takeWhile Char.isDigit with
          | nil => exact hnil hts
          | cons d ds' =>
            refine h 0 ⟨d, ds' ++ after.dropWhile Char.isDigit, ?_, ?_⟩
            · have hafter : after = d :: (ds' ++ after.dropWhile Char.isDigit) := by
                conv_lhs => rw [← List.takeWhile_append_dropWhile (p := Char.isDigit)
                  (l := after)]
                rw [hts]
                simp
              rw [List.drop_zero, dropLit_eq_some.mp hdl]
              conv_lhs => rw [hafter]
            · exact takeWhile_mem (hts ▸ List.mem_cons_self d ds')

/-- Success characterisation of the regex scanner: a returned match is the
literal followed by the maximal nonempty digit run at the leftmost matching
position. -/
theorem jsMatchSeq_eq_some (l m : Str) (h : jsMatchSeq l = some m) :
    ∃ j ds post, m = litSeq ++ ds ∧ (∀ i, i < j → ¬ matchAt l i) ∧
      l.drop j = litSeq ++ ds ++ post ∧ ds ≠ [] ∧
      (∀ c ∈ ds, c.isDigit = true) ∧
      (∀ c cs, post = c :: cs → c.isDigit = false) := by
  induction l with
  | nil => exact absurd h (by simp [jsMatchSeq])
  | cons c rest ih =>
    rw [jsMatchSeq] at h
    cases hdl : dropLit litSeq (c :: rest) with
    | none =>
      rw [hdl] at h
      obtain ⟨j, ds, post, h1, h2, h3, h4, h5, h6⟩ := ih h
      refine ⟨j + 1, ds, post, h1, ?_, h3, h4, h5, h6⟩
      intro i hi
      cases i with
      | zero => exact matchAt_zero_of_dropLit_none hdl
      | succ k => exact fun hm => h2 k (Nat.lt_of_succ_lt_succ hi) (matchAt_succ.mp hm)
    | some after =>
      rw [hdl] at h
      simp only at h
      by_cases hnil : after.takeWhile Char.isDigit = []
      · rw [if_pos hnil] at h
        obtain ⟨j, ds, post, h1, h2, h3, h4, h5, h6⟩ := ih h
        refine ⟨j + 1, ds, post, h1, ?_, h3, h4, h5, h6⟩
        intro i hi
        cases i with
        | zero => exact matchAt_zero_of_no_digit hdl hnil
        | succ k => exact fun hm => h2 k (Nat.lt_of_succ_lt_succ hi) (matchAt_succ.mp hm)
      · rw [if_neg hnil] at h
        cases h
        refine ⟨0, after.takeWhile Char.isDigit, after.dropWhile Char.isDigit,
          rfl, by intro i hi; omega, ?_, hnil, fun c hc => takeWhile_mem hc, ?_⟩
        · rw [List.drop_zero, dropLit_eq_some.mp hdl, List.append_assoc,
            List.takeWhile_append_dropWhile]
        · intro c cs hcs
          exact dropWhile_head_neg hcs

theorem splitEq_no_eq {l : Str} (h : '=' ∉ l) : splitEq l = [l] := by
  induction l with
  | nil => rfl
  | cons c rest ih =>
    rw [splitEq]
    have hc : ¬ (c = '=') := fun he => h (he ▸ List.mem_cons_self c rest)
    rw [if_neg hc, ih (fun hm => h (List.mem_cons_of_mem c hm))]

theorem splitEq_append {xs r : Str} (h : '=' ∉ xs) :
    splitEq (xs ++ '=' :: r) = xs :: splitEq r := by
  induction xs with
  | nil => simp [splitEq]
  | cons c rest ih =>
    have hc : ¬ (c = '=') := fun he => h (he ▸ List.mem_cons_self c rest)
    rw [List.cons_append, splitEq, if_neg hc,
      ih (fun hm => h (List.mem_cons_of_mem c hm))]

theorem splitEq_lit_digits (ds : Str) (h : '=' ∉ ds) :
    (splitEq (litSeq ++ ds)).getD 1 [] = ds := by
  have hlit : litSeq = ("sequenceNumber").data ++ '=' :: [] ++ [] := by rfl
  have : litSeq ++ ds = ("sequenceNumber").data ++ '=' :: ds := by
    rw [hlit]; simp
  rw [this, splitEq_append (by decide), splitEq_no_eq h]
  rfl

theorem digit_ne_eq {c : Char} (h : c.isDigit = true) : ¬ (c = '=') := by
  intro he
  subst he
  simp [Char.isDigit] at h

/-- On a successful match the extractor returns exactly the digit run of
the leftmost greedy match. -/
theorem extractSequenceNumber_some (l ds0 : Str)
    (h : extractSequenceNumber l = some ds0) :
    ∃ j post, (∀ i, i < j → ¬ matchAt l i) ∧
      l.drop j = litSeq ++ ds0 ++ post ∧ ds0 ≠ [] ∧
      (∀ c ∈ ds0, c.isDigit = true) ∧
      (∀ c cs, post = c :: cs → c.isDigit = false) := by
  rw [extractSequenceNumber] at h
  cases hm : jsMatchSeq l with
  | none => rw [hm] at h; exact Option.noConfusion h
  | some m =>
    rw [hm] at h
    obtain ⟨j, ds, post, h1, h2, h3, h4, h5, h6⟩ := jsMatchSeq_eq_some l m hm
    have hds : (splitEq m).getD 1 [] = ds := by
      rw [h1]
      exact splitEq_lit_digits ds (fun hin => digit_ne_eq (h5 '=' hin) rfl)
    simp only at h
    cases h
    rw [hds]
    exact ⟨j, post, h2, h3, h4, h5, h6⟩

/-- The extractor fails exactly on texts with no occurrence of the regex. -/
theorem extractSequenceNumber_none_iff (l : Str) :
    extractSequenceNumber l = none ↔ ¬ hasSeqMatch l := by
  rw [extractSequenceNumber]
  cases hm : jsMatchSeq l with
  | none =>
    simp only [true_iff]
    rintro ⟨j, hj⟩
    exact (jsMatchSeq_eq_none_iff l).mp hm j hj
  | some m =>
    simp only
    constructor
    · intro h; exact Option.noConfusion h
    · intro h
      exfalso
      obtain ⟨j, ds, post, _, _, h3, h4, h5, _⟩ := jsMatchSeq_eq_some l m hm
      cases ds with
      | nil => exact h4 rfl
      | cons d ds' =>
        exact h ⟨j, d, ds' ++ post, by rw [h3]; simp, h5 d (List.mem_cons_self d ds')⟩

/-! ## Decimal rendering, parseInt and the publish path (src/common/util.ts) -/

/-- Decimal digit value to its character. -/
def decChar : Nat → Char
  | 0 => '0'
  | 1 => '1'
  | 2 => '2'
  | 3 => '3'
  | 4 => '4'
  | 5 => '5'
  | 6 => '6'
  | 7 => '7'
  | 8 => '8'
  | _ => '9'

/-- Little-endian decimal digits of a natural number; the first argument
is explicit fuel, and fuel n suffices for value n. -/
def decDigitsAux : Nat → Nat → List Nat
  | 0, _ => []
  | _ + 1, 0 => []
  | fuel + 1, n + 1 => ((n + 1) % 10) :: decDigitsAux fuel ((n + 1) / 10)

/-- Model of JavaScript Number.prototype.toString for nonnegative
integers: decimal digit characters, most significant first. -/
def jsNumToChars (n : Nat) : Str :=
  if n = 0 then ['0'] else ((decDigitsAux n n).reverse.map decChar)

/-- Model of String.prototype.padStart with target length 3 and pad
character zero. -/
def padStart3 (s : Str) : Str := List.replicate (3 - s.length) '0' ++ s

/-- Model of JavaScript parseInt restricted to its use here: the value of
the leading decimal digit run. -/
def parseIntJS (s : Str) : Nat :=
  (s.takeWhile Char.isDigit).foldl (fun a c => a * 10 + (c.toNat - 48)) 0

/-- src/common/constants.ts DIFF_TOP_DIR_DIVIDER. -/
def DIFF_TOP_DIR_DIVIDER : Nat := 1000000

/-- src/common/constants.ts DIFF_BOTTOM_DIR_DIVIDER. -/
def DIFF_BOTTOM_DIR_DIVIDER : Nat := 1000

/-- src/common/constants.ts DIFF_STATE_FILE_MODULO. -/
def DIFF_STATE_FILE_MODULO : Nat := 1000

/-- src/common/util.ts getDiffDirPathComponents: parse the sequence number
string, split the value into top, bottom and state components with floored
division, and render each as a zero-padded decimal string of width 3. -/
def getDiffDirPathComponents (sequenceNumberString : Str) : Str × Str × Str :=
  let sequenceNumberInt := parseIntJS sequenceNumberString
  let top := sequenceNumberInt / DIFF_TOP_DIR_DIVIDER
  let bottom := (sequenceNumberInt % DIFF_TOP_DIR_DIVIDER) / DIFF_BOTTOM_DIR_DIVIDER
  let state := sequenceNumberInt % DIFF_STATE_FILE_MODULO
  (padStart3 (jsNumToChars top), padStart3 (jsNumToChars bottom),
    padStart3 (jsNumToChars state))

theorem decDigitsAux_digit_lt {fuel n : Nat} : ∀ d ∈ decDigitsAux fuel n, d < 10 := by
  induction fuel generalizing n with
  | zero => simp [decDigitsAux]
  | succ f ih =>
    cases n with
    | zero => simp [decDigitsAux]
    | succ m =>
      intro d hd
      rw [decDigitsAux] at hd
      rcases List.mem_cons.mp hd with h | h
      · subst h
        omega
      · exact ih d h

theorem decDigitsAux_sound {fuel : Nat} : ∀ {n : Nat}, n ≤ fuel → ∀ acc : Nat,
    ((decDigitsAux fuel n).reverse).foldl (fun a d => a * 10 + d) acc
      = acc * 10 ^ (decDigitsAux fuel n).length + n := by
  induction fuel with
  | zero =>
    intro n hn acc
    have : n = 0 := Nat.le_zero.mp hn
    subst this
    simp [decDigitsAux]
  | succ f ih =>
    intro n hn acc
    cases n with
    | zero => simp [decDigitsAux]
    | succ m =>
      have hrec : (m + 1) / 10 ≤ f := by
        have := Nat.div_lt_self (Nat.succ_pos m) (by omega : 1 < 10)
        omega
      have hqr : (m + 1) / 10 * 10 + (m + 1) % 10 = m + 1 := by omega
      rw [decDigitsAux]
      rw [List.reverse_cons, List.foldl_append]
      simp only [List.foldl_cons, List.foldl_nil, List.length_cons]
      rw [ih hrec acc]
      calc (acc * 10 ^ (decDigitsAux f ((m + 1) / 10)).length + (m + 1) / 10) * 10
            + (m + 1) % 10
          = acc * (10 ^ (decDigitsAux f ((m + 1) / 10)).length * 10)
            + ((m + 1) / 10 * 10 + (m + 1) % 10) := by ring
        _ = acc * 10 ^ ((decDigitsAux f ((m + 1) / 10)).length + 1) + (m + 1) := by
            rw [hqr, pow_succ]

theorem decDigitsAux_length {fuel : Nat} : ∀ {n k : Nat}, n ≤ fuel → n < 10 ^ k →
    (decDigitsAux fuel n).length ≤ k := by
  induction fuel with
  | zero =>
    intro n k hn _
    have : n = 0 := Nat.le_zero.mp hn
    subst this
    simp [decDigitsAux]
  | succ f ih =>
    intro n k hn hk
    cases n with
    | zero => simp [decDigitsAux]
    | succ m =>
      cases k with
      | zero => simp at hk
      | succ j =>
        have hrec : (m + 1) / 10 ≤ f := by
          have := Nat.div_lt_self (Nat.succ_pos m) (by omega : 1 < 10)
          omega
        have hbound : (m + 1) / 10 < 10 ^ j := by
          rw [Nat.div_lt_iff_lt_mul (by omega : 0 < 10)]
          calc m + 1 < 10 ^ (j + 1) := hk
            _ = 10 ^ j * 10 := by rw [pow_succ]
        rw [decDigitsAux]
        simpa using Nat.succ_le_succ (ih hrec hbound)

theorem decChar_val {d : Nat} (h : d < 10) : (decChar d).toNat - 48 = d := by
  interval_cases d <;> rfl

theorem decChar_isDigit {d : Nat} (h : d < 10) : (decChar d).isDigit = true := by
  interval_cases d <;> rfl

theorem foldl_map_decChar {L : List Nat} (hL : ∀ d ∈ L, d < 10) : ∀ acc : Nat,
    (L.map decChar).foldl (fun a c => a * 10 + (c.toNat - 48)) acc
      = L.foldl (fun a d => a * 10 + d) acc := by
  induction L with
  | nil => intro acc; rfl
  | cons d t ih =>
    intro acc
    have hd : d < 10 := hL d (List.mem_cons_self d t)
    simp only [List.map_cons, List.foldl_cons]
    rw [decChar_val hd]
    exact ih (fun x hx => hL x (List.mem_cons_of_mem d hx)) _

theorem takeWhile_all {p : Char → Bool} {l : Str} (h : ∀ c ∈ l, p c = true) :
    l.takeWhile p = l := by
  induction l with
  | nil => rfl
  | cons c t ih =>
    rw [List.takeWhile_cons_of_pos (h c (List.mem_cons_self c t))]
    rw [ih (fun x hx => h x (List.mem_cons_of_mem c hx))]

theorem jsNumToChars_all_digits (n : Nat) : ∀ c ∈ jsNumToChars n, c.isDigit = true := by
  by_cases hn : n = 0
  · subst hn
    intro c hc
    simp [jsNumToChars] at hc
    subst hc
    rfl
  · intro c hc
    rw [jsNumToChars, if_neg hn] at hc
    obtain ⟨d, hd, hdc⟩ := List.mem_map.mp hc
    have : d < 10 := decDigitsAux_digit_lt d (List.mem_reverse.mp hd)
    exact hdc ▸ decChar_isDigit this

theorem parseIntJS_jsNumToChars (n : Nat) : parseIntJS (jsNumToChars n) = n := by
  rw [parseIntJS, takeWhile_all (jsNumToChars_all_digits n)]
  by_cases hn : n = 0
  · subst hn
    rfl
  · rw [jsNumToChars, if_neg hn]
    have hlt : ∀ d ∈ (decDigitsAux n n).reverse, d < 10 := fun d hd =>
      decDigitsAux_digit_lt d (List.mem_reverse.mp hd)
    rw [List.map_reverse] at *
    rw [← List.map_reverse, foldl_map_decChar (fun d hd =>
      decDigitsAux_digit_lt d (List.mem_reverse.mp hd)) 0]
    rw [decDigitsAux_sound (Nat.le_refl n) 0]
    ring

theorem length_jsNumToChars_le {n : Nat} (h : n < 1000) :
    (jsNumToChars n).length ≤ 3 := by
  by_cases hn : n = 0
  · subst hn
    simp [jsNumToChars]
  · rw [jsNumToChars, if_neg hn, List.length_map, List.length_reverse]
    have h3 : n < 10 ^ 3 := by
      norm_num
      exact h
    exact decDigitsAux_length (Nat.le_refl n) h3

theorem padStart3_length {s : Str} (h : s.length ≤ 3) : (padStart3 s).length = 3 := by
  rw [padStart3, List.length_append, List.length_replicate]
  omega

theorem padStart3_all_digits {s : Str} (h : ∀ c ∈ s, c.isDigit = true) :
    ∀ c ∈ padStart3 s, c.isDigit = true := by
  intro c hc
  rcases List.mem_append.mp hc with hm | hm
  · have : c = '0' := List.eq_of_mem_replicate hm
    subst this
    rfl
  · exact h c hm

theorem foldl_zero_chars : ∀ k : Nat,
    (List.replicate k '0').foldl (fun a c => a * 10 + (c.toNat - 48)) 0 = 0 := by
  intro k
  induction k with
  | zero => rfl
  | succ j ih => simpa [List.replicate_succ] using ih

theorem parseIntJS_padStart3 {s : Str} (h : ∀ c ∈ s, c.isDigit = true) :
    parseIntJS (padStart3 s) = parseIntJS s := by
  rw [parseIntJS, parseIntJS, takeWhile_all h,
    takeWhile_all (padStart3_all_digits h), padStart3, List.foldl_append,
    foldl_zero_chars]

/-- C6: for every N below ten to the ninth, getDiffDirPathComponents of
the decimal rendering of N returns the three components N / 1000000,
N % 1000000 / 1000 and N % 1000, each rendered as a zero-padded decimal
string of exactly 3 digit characters, and recombining the parsed
components as top times a million plus mid times a thousand plus leaf
yields N again. -/
theorem publishPath_roundTrip (N : Nat) (h : N < 1000000000) :
    getDiffDirPathComponents (jsNumToChars N) =
      (padStart3 (jsNumToChars (N / 1000000)),
        padStart3 (jsNumToChars (N % 1000000 / 1000)),
        padStart3 (jsNumToChars (N % 1000))) ∧
    (getDiffDirPathComponents (jsNumToChars N)).1.length = 3 ∧
    (getDiffDirPathComponents (jsNumToChars N)).2.1.length = 3 ∧
    (getDiffDirPathComponents (jsNumToChars N)).2.2.length = 3 ∧
    (∀ c ∈ (getDiffDirPathComponents (jsNumToChars N)).1, c.isDigit = true) ∧
    (∀ c ∈ (getDiffDirPathComponents (jsNumToChars N)).2.1, c.isDigit = true) ∧
    (∀ c ∈ (getDiffDirPathComponents (jsNumToChars N)).2.2, c.isDigit = true) ∧
    parseIntJS (getDiffDirPathComponents (jsNumToChars N)).1 * 1000000 +
      parseIntJS (getDiffDirPathComponents (jsNumToChars N)).2.1 * 1000 +
      parseIntJS (getDiffDirPathComponents (jsNumToChars N)).2.2 = N := by
  have hcomp : getDiffDirPathComponents (jsNumToChars N) =
      (padStart3 (jsNumToChars (N / 1000000)),
        padStart3 (jsNumToChars (N % 1000000 / 1000)),
        padStart3 (jsNumToChars (N % 1000))) := by
    rw [getDiffDirPathComponents]
    simp only [parseIntJS_jsNumToChars, DIFF_TOP_DIR_DIVIDER,
      DIFF_BOTTOM_DIR_DIVIDER, DIFF_STATE_FILE_MODULO]
  have htop : N / 1000000 < 1000 := by omega
  have hmid : N % 1000000 / 1000 < 1000 := by omega
  have hleaf : N % 1000 < 1000 := by omega
  refine ⟨hcomp, ?_, ?_, ?_, ?_, ?_, ?_, ?_⟩
  · rw [hcomp]; exact padStart3_length (length_jsNumToChars_le htop)
  · rw [hcomp]; exact padStart3_length (length_jsNumToChars_le hmid)
  · rw [hcomp]; exact padStart3_length (length_jsNumToChars_le hleaf)
  · rw [hcomp]; exact padStart3_all_digits (jsNumToChars_all_digits _)
  · rw [hcomp]; exact padStart3_all_digits (jsNumToChars_all_digits _)
  · rw [hcomp]; exact padStart3_all_digits (jsNumToChars_all_digits _)
  · rw [hcomp]
    simp only [parseIntJS_padStart3 (jsNumToChars_all_digits _),
      parseIntJS_jsNumToChars]
    omega

/-- Witness for C6 at the overflow-path scenario value 1234568, whose
expected publish path is 001/234/568. -/
theorem publishPath_roundTrip_witness :
    getDiffDirPathComponents (jsNumToChars 1234568) =
      (("001").data, ("234").data, ("568").data) ∧
    parseIntJS (getDiffDirPathComponents (jsNumToChars 1234568)).1 * 1000000 +
      parseIntJS (getDiffDirPathComponents (jsNumToChars 1234568)).2.1 * 1000 +
      parseIntJS (getDiffDirPathComponents (jsNumToChars 1234568)).2.2 = 1234568 := by
  have h := publishPath_roundTrip 1234568 (by decide)
  exact ⟨by decide, h.2.2.2.2.2.2.2⟩

/-! ## Errors and exit codes (src/common/errors.ts, src/common/constants.ts) -/

/-- Exit codes of src/common/constants.ts. -/
def exitSuccess : Nat := 0

def exitGeneralError : Nat := 1

def exitOsmdbtError : Nat := 100

def exitOsmiumError : Nat := 101

def exitInvalidStateFileError : Nat := 102

def exitRollbackFailureError : Nat := 104

def exitS3Error : Nat := 105

def exitFsError : Nat := 107

/-- A thrown JavaScript error: either an ErrorWithExitCode carrying a
process exit code, or a plain error with no exit code. -/
inductive JsErr
  | withCode (exitCode : Nat)
  | plain
deriving DecidableEq

/-- Exit-code classification performed by executeJob: an ErrorWithExitCode
yields its code, any other error yields the general error code 1. -/
def classifyErr : JsErr → Nat
  | JsErr.withCode c => c
  | JsErr.plain => exitGeneralError

/-- Pure core of getSequenceNumber (osmdbtService.ts, executeJob class):
extraction failure becomes an ErrorWithExitCode with the invalid-state
exit code 102. -/
def parseStateContent (content : Str) : Except JsErr Str :=
  match extractSequenceNumber content with
  | some ds => Except.ok ds
  | none => Except.error (JsErr.withCode exitInvalidStateFileError)

/-- C7: for every text, when extraction succeeds the returned value is the
digit run of the leftmost greedy match of the regex sequenceNumber=\d+,
and parsing fails with the InvalidStateError exit code 102 exactly when
the text contains no substring matching the regex. -/
theorem sequence_parser_spec (l : Str) :
    (∀ ds, extractSequenceNumber l = some ds →
      parseStateContent l = Except.ok ds ∧
      ∃ j post, (∀ i, i < j → ¬ matchAt l i) ∧
        l.drop j = litSeq ++ ds ++ post ∧ ds ≠ [] ∧
        (∀ c ∈ ds, c.isDigit = true) ∧
        (∀ c cs, post = c :: cs → c.isDigit = false)) ∧
    (parseStateContent l = Except.error (JsErr.withCode exitInvalidStateFileError)
      ↔ ¬ hasSeqMatch l) := by
  constructor
  · intro ds hds
    refine ⟨by rw [parseStateContent, hds], ?_⟩
    obtain ⟨j, post, h1, h2, h3, h4, h5⟩ := extractSequenceNumber_some l ds hds
    exact ⟨j, post, h1, h2, h3, h4, h5⟩
  · rw [← extractSequenceNumber_none_iff]
    rw [parseStateContent]
    cases hx : extractSequenceNumber l with
    | none => simp
    | some ds => simp

/-- Witness for C7 on a concrete state file text. -/
theorem sequence_parser_spec_witness :
    parseStateContent (("state sequenceNumber=667 more").data) =
      Except.ok (("667").data) :=
  (((sequence_parser_spec (("state sequenceNumber=667 more").data)).1
    (("667").data)) (by rfl)).1

/-! ## The best-effort wrapper (src/common/util.ts, attemptSafely) -/

/-- Result values of attemptSafely: either a record holding data on
success or a record holding the thrown error. -/
inductive SafeResult (T E : Type)
  | success (data : T)
  | failure (error : E)
deriving DecidableEq

/-- src/common/util.ts attemptSafely: await the function and wrap its
value as a data result, catching any thrown value into an error result.
The outer Except layer is the promise returned by attemptSafely itself,
on which a rejection of the wrapper would surface. -/
def attemptSafely {T E F : Type} (fn : Except E T) : Except F (SafeResult T E) :=
  match fn with
  | Except.ok v => Except.ok (SafeResult.success v)
  | Except.error e => Except.ok (SafeResult.failure e)

/-- C10: attemptSafely never rejects, and resolves to a data result when
the wrapped function resolves and to an error result holding the thrown
value when the wrapped function rejects. -/
theorem attemptSafely_never_rejects {T E F : Type} (fn : Except E T) :
    (∃ r, attemptSafely (F := F) fn = Except.ok r) ∧
    (∀ v, fn = Except.ok v →
      attemptSafely (F := F) fn = Except.ok (SafeResult.success v)) ∧
    (∀ e, fn = Except.error e →
      attemptSafely (F := F) fn = Except.ok (SafeResult.failure e)) := by
  refine ⟨?_, ?_, ?_⟩
  · cases fn with
    | ok v => exact ⟨SafeResult.success v, rfl⟩
    | error e => exact ⟨SafeResult.failure e, rfl⟩
  · intro v hv
    rw [hv]
    rfl
  · intro e he
    rw [he]
    rfl

/-- Witness for C10 on a concrete rejecting computation. -/
theorem attemptSafely_never_rejects_witness :
    attemptSafely (F := Unit) (Except.error JsErr.plain : Except JsErr Nat) =
      Except.ok (SafeResult.failure JsErr.plain) :=
  (attemptSafely_never_rejects (F := Unit)
    (Except.error JsErr.plain : Except JsErr Nat)).2.2 JsErr.plain rfl

/-! ## The job engine (src/osmdbt/osmdbtService.ts, executeJob class)

The engine is embedded as an explicit state-passing interpreter. A World
holds the staging file map, the remote object map, the names in the logs
directory and the trace of observable events. An Env supplies the outcome
of every external call and the abstract effect of the osmdbt tools on the
staging tree. Each phase returns an Except outcome together with the
updated world, mirroring thrown errors and awaited effects. -/

/-- Observable events of one job run. -/
inductive Ev
  | reserveAccess
  | s3Get (key : String)
  | s3Put (key : String)
  | createAction (state : Nat)
  | removeLock
  | updateActionCompleted
  | updateActionFailed
  | getLog
  | createDiff
  | catchup
  | renameLog (oldName newName : String)
  | unlinkLog (name : String)
  | rollback
  | collectInfo
deriving DecidableEq

/-- The world threaded through a job: staging files, remote objects, the
names in the logs directory, and the event trace. -/
structure World where
  fs : List (String × String)
  remote : List (String × String)
  logFiles : List String
  trace : List Ev
deriving DecidableEq

/-- First-match association lookup. -/
def lookupMap : List (String × String) → String → Option String
  | [], _ => none
  | kv :: rest, k => if kv.1 = k then some kv.2 else lookupMap rest k

/-- Association insert (shadowing any earlier binding). -/
def insertMap (m : List (String × String)) (k v : String) :
    List (String × String) := (k, v) :: m

/-- Environment of oracles: outcomes of external calls and abstract tool
effects. -/
structure Env where
  reserveOk : Bool
  mkdirFail : String → Bool
  s3GetFail : String → Bool
  s3PutFail : String → Bool
  fsReadFail : String → Bool
  fsWriteFail : String → Bool
  readdirFail : Bool
  renameFail : String → Bool
  unlinkFail : String → Bool
  getLogOk : Bool
  getLogFs : List (String × String) → List (String × String)
  getLogNewLogs : List String
  createDiffOk : Bool
  createDiffFs : List (String × String) → List (String × String)
  catchupOk : Bool
  createActionOk : Bool
  removeLockOk : Bool
  updateActionOk : Bool
  collectInfoOk : Bool

/-- Configured staging directories and file names (src/common/constants.ts
and the default configuration). -/
def changesDir : String := "changes"

def logDir : String := "logs"

def runDir : String := "run"

def STATE_FILE : String := "state.txt"

def BACKUP_DIR_NAME : String := "backup"

def DIFF_FILE_EXTENTION : String := "osc.gz"

def doneSuffix : String := ".done"

def osmdbtStatePath : String := changesDir ++ "/" ++ STATE_FILE

def osmdbtStateBackupPath : String :=
  changesDir ++ "/" ++ BACKUP_DIR_NAME ++ "/" ++ STATE_FILE

/-- src/fs/fsRepository.ts readFile: every failure, including a missing
file, surfaces an ErrorWithExitCode with the fs exit code 107. -/
def fsRepoReadFile (env : Env) (w : World) (p : String) :
    Except JsErr String × World :=
  if env.fsReadFail p then (Except.error (JsErr.withCode exitFsError), w)
  else
    match lookupMap w.fs p with
    | some c => (Except.ok c, w)
    | none => (Except.error (JsErr.withCode exitFsError), w)

/-- src/fs/fsRepository.ts writeFile, wrapped to the fs exit code 107. -/
def fsRepoWriteFile (env : Env) (w : World) (p c : String) :
    Except JsErr Unit × World :=
  if env.fsWriteFail p then (Except.error (JsErr.withCode exitFsError), w)
  else (Except.ok (), { w with fs := insertMap w.fs p c })

/-- src/fs/fsRepository.ts readdir on the logs directory. -/
def fsRepoReaddirLogs (env : Env) (w : World) :
    Except JsErr (List String) × World :=
  if env.readdirFail then (Except.error (JsErr.withCode exitFsError), w)
  else (Except.ok w.logFiles, w)

/-- src/fs/fsRepository.ts rename of a log file. -/
def fsRepoRenameLog (env : Env) (w : World) (oldName newName : String) :
    Except JsErr Unit × World :=
  let w1 := { w with trace := w.trace ++ [Ev.renameLog oldName newName] }
  if env.renameFail oldName then (Except.error (JsErr.withCode exitFsError), w1)
  else (Except.ok (),
    { w1 with logFiles := w1.logFiles.map (fun x => if x = oldName then newName else x) })

/-- src/fs/fsRepository.ts unlink of a log file. -/
def fsRepoUnlinkLog (env : Env) (w : World) (name : String) :
    Except JsErr Unit × World :=
  let w1 := { w with trace := w.trace ++ [Ev.unlinkLog name] }
  if env.unlinkFail name then (Except.error (JsErr.withCode exitFsError), w1)
  else (Except.ok (), { w1 with logFiles := w1.logFiles.filter (fun x => x ≠ name) })

/-- S3Manager.getObject: failures surface an ErrorWithExitCode with the s3
exit code 105. -/
def s3GetObject (env : Env) (w : World) (key : String) :
    Except JsErr String × World :=
  let w1 := { w with trace := w.trace ++ [Ev.s3Get key] }
  if env.s3GetFail key then (Except.error (JsErr.withCode exitS3Error), w1)
  else
    match lookupMap w.remote key with
    | some c => (Except.ok c, w1)
    | none => (Except.error (JsErr.withCode exitS3Error), w1)

/-- S3Manager.putObject: failures surface an ErrorWithExitCode with the s3
exit code 105; on success the remote object map is updated. -/
def s3PutObject (env : Env) (w : World) (key content : String) :
    Except JsErr Unit × World :=
  let w1 := { w with trace := w.trace ++ [Ev.s3Put key] }
  if env.s3PutFail key then (Except.error (JsErr.withCode exitS3Error), w1)
  else (Except.ok (), { w1 with remote := insertMap w1.remote key content })

/-- Mediator reserveAccess; its errors are plain library errors. -/
def mediatorReserveAccess (env : Env) (w : World) : Except JsErr Unit × World :=
  let w1 := { w with trace := w.trace ++ [Ev.reserveAccess] }
  if env.reserveOk then (Except.ok (), w1) else (Except.error JsErr.plain, w1)

/-- Mediator createAction with the numeric end state. -/
def mediatorCreateAction (env : Env) (w : World) (st : Nat) :
    Except JsErr Unit × World :=
  let w1 := { w with trace := w.trace ++ [Ev.createAction st] }
  if env.createActionOk then (Except.ok (), w1) else (Except.error JsErr.plain, w1)

/-- Mediator removeLock. -/
def mediatorRemoveLock (env : Env) (w : World) : Except JsErr Unit × World :=
  let w1 := { w with trace := w.trace ++ [Ev.removeLock] }
  if env.removeLockOk then (Except.ok (), w1) else (Except.error JsErr.plain, w1)

/-- Mediator updateAction with status COMPLETED. -/
def mediatorUpdateActionCompleted (env : Env) (w : World) :
    Except JsErr Unit × World :=
  let w1 := { w with trace := w.trace ++ [Ev.updateActionCompleted] }
  if env.updateActionOk then (Except.ok (), w1) else (Except.error JsErr.plain, w1)

/-- Mediator updateAction with status FAILED. -/
def mediatorUpdateActionFailed (env : Env) (w : World) :
    Except JsErr Unit × World :=
  let w1 := { w with trace := w.trace ++ [Ev.updateActionFailed] }
  if env.updateActionOk then (Except.ok (), w1) else (Except.error JsErr.plain, w1)

/-- OsmdbtExecutable.getLog: on tool failure an ErrorWithExitCode with the
osmdbt exit code 100; on success the tool effect on the staging tree and
new log files supplied by the environment. -/
def osmdbtGetLog (env : Env) (w : World) : Except JsErr Unit × World :=
  let w1 := { w with trace := w.trace ++ [Ev.getLog] }
  if env.getLogOk then
    (Except.ok (),
      { w1 with fs := env.getLogFs w1.fs, logFiles := w1.logFiles ++ env.getLogNewLogs })
  else (Except.error (JsErr.withCode exitOsmdbtError), w1)

/-- OsmdbtExecutable.createDiff. -/
def osmdbtCreateDiff (env : Env) (w : World) : Except JsErr Unit × World :=
  let w1 := { w with trace := w.trace ++ [Ev.createDiff] }
  if env.createDiffOk then (Except.ok (), { w1 with fs := env.createDiffFs w1.fs })
  else (Except.error (JsErr.withCode exitOsmdbtError), w1)

/-- OsmdbtExecutable.catchup. -/
def osmdbtCatchup (env : Env) (w : World) : Except JsErr Unit × World :=
  let w1 := { w with trace := w.trace ++ [Ev.catchup] }
  if env.catchupOk then (Except.ok (), w1)
  else (Except.error (JsErr.withCode exitOsmdbtError), w1)

/-- OsmiumExecutable.fileInfo, used only inside a best-effort region. -/
def osmiumFileInfo (env : Env) (w : World) : Except JsErr Unit × World :=
  let w1 := { w with trace := w.trace ++ [Ev.collectInfo] }
  if env.collectInfoOk then (Except.ok (), w1)
  else (Except.error (JsErr.withCode exitOsmdbtError), w1)

/-- prepareEnvironment: mkdir for the log, changes, run and backup
directories (deduplicated; the four configured directories are distinct
strings); a fan-out where all mkdir calls are attempted and any failure
surfaces the fs exit code 107. -/
def prepareEnvironment (env : Env) (w : World) : Except JsErr Unit × World :=
  let uniqueDirs := [logDir, changesDir, runDir, changesDir ++ "/" ++ BACKUP_DIR_NAME]
  if uniqueDirs.any (fun d => env.mkdirFail d) then
    (Except.error (JsErr.withCode exitFsError), w)
  else (Except.ok (), w)

/-- pullStateFile (osmdbtService.ts lines 749-758): get the pointer
object, stream it to a string, then write that same content to both the
working state path and the backup path in a fan-out where both writes are
attempted. -/
def pullStateFile (env : Env) (w : World) : Except JsErr Unit × World :=
  match s3GetObject env w STATE_FILE with
  | (Except.error e, w1) => (Except.error e, w1)
  | (Except.ok stateFileContent, w1) =>
    match fsRepoWriteFile env w1 osmdbtStatePath stateFileContent with
    | (r1, w2) =>
      match fsRepoWriteFile env w2 osmdbtStateBackupPath stateFileContent with
      | (r2, w3) =>
        match r1 with
        | Except.error e => (Except.error e, w3)
        | Except.ok _ =>
          match r2 with
          | Except.error e => (Except.error e, w3)
          | Except.ok _ => (Except.ok (), w3)

/-- getSequenceNumber (lines 611-628): read the working state file through
the fs repository and extract the sequence number, mapping extraction
failure to the invalid-state exit code 102. -/
def getSequenceNumberM (env : Env) (w : World) : Except JsErr Str × World :=
  match fsRepoReadFile env w osmdbtStatePath with
  | (Except.error e, w1) => (Except.error e, w1)
  | (Except.ok content, w1) => (parseStateContent content.data, w1)

/-- The relative key of the per-sequence state artifact. -/
def diffStateKey (e : Str) : String :=
  let c := getDiffDirPathComponents e
  String.mk c.1 ++ "/" ++ String.mk c.2.1 ++ "/" ++ String.mk c.2.2
    ++ "." ++ STATE_FILE

/-- The relative key of the per-sequence diff artifact. -/
def diffGzKey (e : Str) : String :=
  let c := getDiffDirPathComponents e
  String.mk c.1 ++ "/" ++ String.mk c.2.1 ++ "/" ++ String.mk c.2.2
    ++ "." ++ DIFF_FILE_EXTENTION

/-- One branch of the publish fan-out: read the local artifact under the
changes directory, then put it to the same relative key. -/
def uploadBranch (env : Env) (w : World) (filePath : String) :
    Except JsErr Unit × World :=
  match fsRepoReadFile env w (changesDir ++ "/" ++ filePath) with
  | (Except.error e, w1) => (Except.error e, w1)
  | (Except.ok content, w1) => s3PutObject env w1 filePath content

/-- uploadDiff (lines 630-659): fan-out upload of the per-sequence state
and diff artifacts, both attempted; only after both succeed the working
state file is re-read and put to the pointer key; on any failure a
best-effort updateAction FAILED is attempted and the error rethrown. -/
def uploadDiff (env : Env) (w : World) (sequenceNumber : Str) :
    Except JsErr Unit × World :=
  match uploadBranch env w (diffStateKey sequenceNumber) with
  | (r1, w1) =>
    match uploadBranch env w1 (diffGzKey sequenceNumber) with
    | (r2, w2) =>
      match r1, r2 with
      | Except.ok _, Except.ok _ =>
        match fsRepoReadFile env w2 osmdbtStatePath with
        | (Except.error e, w3) =>
          (Except.error e, (mediatorUpdateActionFailed env w3).2)
        | (Except.ok endStateFileContent, w3) =>
          match s3PutObject env w3 STATE_FILE endStateFileContent with
          | (Except.ok _, w4) => (Except.ok (), w4)
          | (Except.error e, w4) =>
            (Except.error e, (mediatorUpdateActionFailed env w4).2)
      | Except.error e, _ =>
        (Except.error e, (mediatorUpdateActionFailed env w2).2)
      | Except.ok _, Except.error e =>
        (Except.error e, (mediatorUpdateActionFailed env w2).2)

/-- Sequential interpretation of a settle-all fan-out over a list: every
step is attempted, and the first error (in list order) is reported. -/
def fanOut (step : World → String → Except JsErr Unit × World) (w : World) :
    List String → Except JsErr Unit × World
  | [] => (Except.ok (), w)
  | x :: xs =>
    match step w x with
    | (r, w1) =>
      match fanOut step w1 xs with
      | (r2, w2) =>
        match r with
        | Except.error e => (Except.error e, w2)
        | Except.ok _ => (r2, w2)

/-- One mark step: rename a log file by stripping the done suffix; files
not ending in the suffix are skipped. -/
def markOne (env : Env) (w : World) (logFileName : String) :
    Except JsErr Unit × World :=
  if logFileName.endsWith doneSuffix then
    fsRepoRenameLog env w logFileName (logFileName.dropRight doneSuffix.length)
  else (Except.ok (), w)

/-- markLogFilesForCatchup (lines 701-726). -/
def markLogFilesForCatchup (env : Env) (w : World) : Except JsErr Unit × World :=
  match fsRepoReaddirLogs env w with
  | (Except.error e, w1) => (Except.error e, w1)
  | (Except.ok logFilesNames, w1) => fanOut (markOne env) w1 logFilesNames

/-- commitChanges (lines 661-676): mark the logs, then run catchup. -/
def commitChanges (env : Env) (w : World) : Except JsErr Unit × World :=
  match markLogFilesForCatchup env w with
  | (Except.error e, w1) => (Except.error e, w1)
  | (Except.ok _, w1) => osmdbtCatchup env w1

/-- postCatchupCleanup (lines 678-699): read the logs directory and unlink
every entry, all attempted; on failure a best-effort updateAction FAILED
and a rethrow of the fs error. -/
def postCatchupCleanup (env : Env) (w : World) : Except JsErr Unit × World :=
  match fsRepoReaddirLogs env w with
  | (Except.error e, w1) =>
    (Except.error e, (mediatorUpdateActionFailed env w1).2)
  | (Except.ok logFilesNames, w1) =>
    match fanOut (fun w2 n => fsRepoUnlinkLog env w2 n) w1 logFilesNames with
    | (Except.ok _, w2) => (Except.ok (), w2)
    | (Except.error e, w2) =>
      (Except.error e, (mediatorUpdateActionFailed env w2).2)

/-- rollback (lines 728-740): read the backup state file and put it to the
pointer key; any failure is rethrown as an ErrorWithExitCode carrying the
rollback exit code 104. -/
def rollback (env : Env) (w : World) : Except JsErr Unit × World :=
  let w0 := { w with trace := w.trace ++ [Ev.rollback] }
  match fsRepoReadFile env w0 osmdbtStateBackupPath with
  | (Except.error _, w1) =>
    (Except.error (JsErr.withCode exitRollbackFailureError), w1)
  | (Except.ok backupStateFileContent, w1) =>
    match s3PutObject env w1 STATE_FILE backupStateFileContent with
    | (Except.ok _, w2) => (Except.ok (), w2)
    | (Except.error _, w2) =>
      (Except.error (JsErr.withCode exitRollbackFailureError), w2)

/-- The commit-onward part of startJob (lines 564-594): commit changes
with rollback on commit failure, then post-catchup cleanup, best-effort
info collection and the final updateAction COMPLETED. On commit failure
the rollback runs; a rollback failure is reported FAILED best-effort and
rethrown, otherwise the original commit error is reported FAILED
best-effort and rethrown. -/
def startJobCommitPhase (env : Env) (w : World) : Except JsErr Unit × World :=
  match commitChanges env w with
  | (Except.error commitErr, w4) =>
    match rollback env w4 with
    | (Except.error rollbackErr, w5) =>
      (Except.error rollbackErr, (mediatorUpdateActionFailed env w5).2)
    | (Except.ok _, w5) =>
      (Except.error commitErr, (mediatorUpdateActionFailed env w5).2)
  | (Except.ok _, w4) =>
    match postCatchupCleanup env w4 with
    | (Except.error e, w5) => (Except.error e, w5)
    | (Except.ok _, w5) =>
      let w6 := (osmiumFileInfo env w5).2
      match mediatorUpdateActionCompleted env w6 with
      | (Except.error e, w7) => (Except.error e, w7)
      | (Except.ok _, w7) => (Except.ok (), w7)

/-- The tail of startJob for a non-null job, from createAction onward:
createAction propagates its failure, removeLock is best-effort, then the
publish fan-out followed by the commit-onward phases. -/
def startJobTail (env : Env) (w : World) (endState : Str) :
    Except JsErr Unit × World :=
  match mediatorCreateAction env w (parseIntJS endState) with
  | (Except.error e, w1) => (Except.error e, w1)
  | (Except.ok _, w1) =>
    let w2 := (mediatorRemoveLock env w1).2
    match uploadDiff env w2 endState with
    | (Except.error e, w3) => (Except.error e, w3)
    | (Except.ok _, w3) => startJobCommitPhase env w3

/-- startJob (lines 524-594): the phase protocol of one job. -/
def startJob (env : Env) (w : World) : Except JsErr Unit × World :=
  match mediatorReserveAccess env w with
  | (Except.error e, w1) => (Except.error e, w1)
  | (Except.ok _, w1) =>
    match prepareEnvironment env w1 with
    | (Except.error e, w2) => (Except.error e, w2)
    | (Except.ok _, w2) =>
      match pullStateFile env w2 with
      | (Except.error e, w3) => (Except.error e, w3)
      | (Except.ok _, w3) =>
        match getSequenceNumberM env w3 with
        | (Except.error e, w4) => (Except.error e, w4)
        | (Except.ok startState, w4) =>
          match osmdbtGetLog env w4 with
          | (Except.error e, w5) => (Except.error e, w5)
          | (Except.ok _, w5) =>
            match osmdbtCreateDiff env w5 with
            | (Except.error e, w6) => (Except.error e, w6)
            | (Except.ok _, w6) =>
              match getSequenceNumberM env w6 with
              | (Except.error e, w7) => (Except.error e, w7)
              | (Except.ok endState, w7) =>
                if startState = endState then
                  (Except.ok (), (mediatorRemoveLock env w7).2)
                else
                  startJobTail env w7 endState

/-- Result of one admitted executeJob invocation. -/
structure JobOutcome where
  exitCode : Nat
  result : Except JsErr Unit
  world : World

/-- executeJob (lines 495-522) after the single-flight guard admitted the
invocation: run startJob, record the classified exit code, and rethrow the
error. The guard itself is modelled separately as a transition system. -/
def executeJobRun (env : Env) (w : World) : JobOutcome :=
  match startJob env w with
  | (Except.ok _, w1) => ⟨exitSuccess, Except.ok (), w1⟩
  | (Except.error e, w1) => ⟨classifyErr e, Except.error e, w1⟩

/-! ## The older S3Manager pull (src/s3/s3Manager.ts, getStateFileFromS3ToFs) -/

/-- A direct fs/promises writeFile as used by the older S3Manager: its
failure is a plain error, not wrapped into an exit code. -/
def rawWriteFile (env : Env) (w : World) (p c : String) :
    Except JsErr Unit × World :=
  if env.fsWriteFail p then (Except.error JsErr.plain, w)
  else (Except.ok (), { w with fs := insertMap w.fs p c })

/-- Sequential settle-all over raw writes of one content to a target
list. -/
def rawWriteAll (env : Env) (c : String) (w : World) :
    List String → Except JsErr Unit × World
  | [] => (Except.ok (), w)
  | t :: ts =>
    match rawWriteFile env w t c with
    | (r, w1) =>
      match rawWriteAll env c w1 ts with
      | (r2, w2) =>
        match r with
        | Except.error e => (Except.error e, w2)
        | Except.ok _ => (r2, w2)

/-- getStateFileFromS3ToFs of src/s3/s3Manager.ts (lines 44-80): get the
pointer object and stream it to a string, then map over the two-element
list holding path and backupPath. In the source the body of that map binds
filePath but passes the outer variable path to writeFile, so every
iteration writes the working path; the write targets are therefore the
constant path, once per element of the list. -/
def getStateFileFromS3ToFs (env : Env) (w : World) (path backupPath : String) :
    Except JsErr Unit × World :=
  match s3GetObject env w STATE_FILE with
  | (Except.error e, w1) => (Except.error e, w1)
  | (Except.ok stateFileContent, w1) =>
    rawWriteAll env stateFileContent w1
      (([path, backupPath]).map (fun _filePath => path))

/-! ## The single-flight guard of executeJob (lines 495-522)

Overlapping executeJob invocations on one instance are modelled as a
transition system. Each invocation is one task; the section of executeJob
from entry up to the first await is synchronous JavaScript, so the guard
check and the setting of isActiveJob form one atomic step. The finally
block clears the flag on every exit path, whether startJob resolved or
threw. -/

/-- The state of one executeJob invocation: idle before its guard section
runs, running a number of completed phase-work steps after being admitted,
skipped with the number of phase-work steps it performed when the guard
observed an active job, or finished after the guaranteed-release block. -/
inductive TaskState
  | idle
  | running (work : Nat)
  | skipped (work : Nat)
  | finished (work : Nat) (failed : Bool)
deriving DecidableEq

/-- The process state: the instance-scoped isActiveJob flag and the states
of the overlapping invocations. -/
structure GuardSys where
  isActiveJob : Bool
  tasks : List TaskState
deriving DecidableEq

/-- One interleaving step of overlapping executeJob invocations, where K
is the number of phase-work steps of an admitted job. skip and enter are
the atomic synchronous guard section; work is one awaited phase step;
finish is the finally block, which clears the flag whether the job failed
or not. -/
inductive GuardStep (K : Nat) : GuardSys → GuardSys → Prop
  | skip (l1 l2 : List TaskState) :
      GuardStep K ⟨true, l1 ++ TaskState.idle :: l2⟩
        ⟨true, l1 ++ TaskState.skipped 0 :: l2⟩
  | enter (l1 l2 : List TaskState) :
      GuardStep K ⟨false, l1 ++ TaskState.idle :: l2⟩
        ⟨true, l1 ++ TaskState.running 0 :: l2⟩
  | work (b : Bool) (l1 l2 : List TaskState) (k : Nat) (hk : k < K) :
      GuardStep K ⟨b, l1 ++ TaskState.running k :: l2⟩
        ⟨b, l1 ++ TaskState.running (k + 1) :: l2⟩
  | finish (b failed : Bool) (l1 l2 : List TaskState) :
      GuardStep K ⟨b, l1 ++ TaskState.running K :: l2⟩
        ⟨false, l1 ++ TaskState.finished K failed :: l2⟩

/-- Reachability under interleaved executeJob steps. -/
def guardReach (K : Nat) : GuardSys → GuardSys → Prop :=
  Relation.ReflTransGen (GuardStep K)

/-- The initial process state for n pending overlapping invocations. -/
def initSys (n : Nat) : GuardSys := ⟨false, List.replicate n TaskState.idle⟩

/-- Whether a task has been admitted past the guard and not yet finished. -/
def isRunning : TaskState → Bool
  | TaskState.running _ => true
  | _ => false

/-- The number of invocations currently past the guard. -/
def runningCount (s : GuardSys) : Nat := s.tasks.countP isRunning

/-- The guard invariant: the number of running tasks is one exactly when
the isActiveJob flag is set and zero otherwise, and every skipped
invocation performed zero phase-work steps. -/
def GuardInv (s : GuardSys) : Prop :=
  runningCount s = (if s.isActiveJob then 1 else 0) ∧
  (∀ w, TaskState.skipped w ∈ s.tasks → w = 0)

theorem guardInv_init (n : Nat) : GuardInv (initSys n) := by
  constructor
  · show List.countP isRunning (List.replicate n TaskState.idle) = _
    rw [show (if (initSys n).isActiveJob then 1 else 0) = 0 from rfl,
      List.countP_eq_zero]
    intro t ht
    rw [List.eq_of_mem_replicate ht]
    simp [isRunning]
  · intro w hw
    exact absurd (List.eq_of_mem_replicate hw) (by intro h; exact TaskState.noConfusion h)

theorem guardInv_step {K : Nat} {s s' : GuardSys} (hstep : GuardStep K s s')
    (hinv : GuardInv s) : GuardInv s' := by
  obtain ⟨hc, hsk⟩ := hinv
  cases hstep with
  | skip l1 l2 =>
    constructor
    · have hneg1 : ¬ isRunning TaskState.idle = true := by simp [isRunning]
      have hneg2 : ¬ isRunning (TaskState.skipped 0) = true := by simp [isRunning]
      have h1 : List.countP isRunning l1 + List.countP isRunning l2 = 1 := by
        simp only [runningCount] at hc
        rw [List.countP_append, List.countP_cons_of_neg _ _ hneg1] at hc
        exact hc
      show List.countP isRunning (l1 ++ TaskState.skipped 0 :: l2) = _
      rw [List.countP_append, List.countP_cons_of_neg _ _ hneg2]
      exact h1
    · intro w hw
      rcases List.mem_append.mp hw with h | h
      · exact hsk w (List.mem_append.mpr (Or.inl h))
      · rcases List.mem_cons.mp h with h | h
        · cases h; rfl
        · exact hsk w (List.mem_append.mpr (Or.inr (List.mem_cons_of_mem _ h)))
  | enter l1 l2 =>
    constructor
    · have hneg1 : ¬ isRunning TaskState.idle = true := by simp [isRunning]
      have hpos : isRunning (TaskState.running 0) = true := rfl
      have h0 : List.countP isRunning l1 + List.countP isRunning l2 = 0 := by
        simp only [runningCount] at hc
        rw [List.countP_append, List.countP_cons_of_neg _ _ hneg1] at hc
        exact hc
      show List.countP isRunning (l1 ++ TaskState.running 0 :: l2) = 1
      rw [List.countP_append, List.countP_cons_of_pos _ _ hpos]
      omega
    · intro w hw
      rcases List.mem_append.mp hw with h | h
      · exact hsk w (List.mem_append.mpr (Or.inl h))
      · rcases List.mem_cons.mp h with h | h
        · exact absurd h (by intro h2; exact TaskState.noConfusion h2)
        · exact hsk w (List.mem_append.mpr (Or.inr (List.mem_cons_of_mem _ h)))
  | work b l1 l2 k hk =>
    constructor
    · have hpos1 : isRunning (TaskState.running k) = true := rfl
      have hpos2 : isRunning (TaskState.running (k + 1)) = true := rfl
      have h1 : List.countP isRunning l1 + (List.countP isRunning l2 + 1)
          = (if b = true then 1 else 0) := by
        simp only [runningCount] at hc
        rw [List.countP_append, List.countP_cons_of_pos _ _ hpos1] at hc
        exact hc
      show List.countP isRunning (l1 ++ TaskState.running (k + 1) :: l2) = _
      rw [List.countP_append, List.countP_cons_of_pos _ _ hpos2]
      exact h1
    · intro w hw
      rcases List.mem_append.mp hw with h | h
      · exact hsk w (List.mem_append.mpr (Or.inl h))
      · rcases List.mem_cons.mp h with h | h
        · exact absurd h (by intro h2; exact TaskState.noConfusion h2)
        · exact hsk w (List.mem_append.mpr (Or.inr (List.mem_cons_of_mem _ h)))
  | finish b failed l1 l2 =>
    constructor
    · have hpos : isRunning (TaskState.running K) = true := rfl
      have hneg : ¬ isRunning (TaskState.finished K failed) = true := by
        simp [isRunning]
      have h1 : List.countP isRunning l1 + (List.countP isRunning l2 + 1)
          = (if b = true then 1 else 0) := by
        simp only [runningCount] at hc
        rw [List.countP_append, List.countP_cons_of_pos _ _ hpos] at hc
        exact hc
      have hb : b = true := by
        by_contra hbf
        rw [if_neg hbf] at h1
        omega
      show List.countP isRunning (l1 ++ TaskState.finished K failed :: l2) = 0
      rw [List.countP_append, List.countP_cons_of_neg _ _ hneg]
      rw [hb, if_pos rfl] at h1
      omega
    · intro w hw
      rcases List.mem_append.mp hw with h | h
      · exact hsk w (List.mem_append.mpr (Or.inl h))
      · rcases List.mem_cons.mp h with h | h
        · exact absurd h (by intro h2; exact TaskState.noConfusion h2)
        · exact hsk w (List.mem_append.mpr (Or.inr (List.mem_cons_of_mem _ h)))

theorem guardInv_reach {K : Nat} {s : GuardSys} {n : Nat}
    (h : guardReach K (initSys n) s) : GuardInv s := by
  induction h with
  | refl => exact guardInv_init n
  | tail _ hstep ih => exact guardInv_step hstep ih

/-- C4: in every state reachable by overlapping executeJob invocations, at
most one invocation is past the guard; every invocation that returned with
the already-active warning performed no phase work; and once no invocation
is running the isActiveJob flag is clear, so a subsequent non-overlapping
invocation can be admitted. -/
theorem single_flight (K n : Nat) (s : GuardSys)
    (h : guardReach K (initSys n) s) :
    runningCount s ≤ 1 ∧
    (∀ w, TaskState.skipped w ∈ s.tasks → w = 0) ∧
    ((∀ t ∈ s.tasks, isRunning t = false) → s.isActiveJob = false) := by
  obtain ⟨hc, hsk⟩ := guardInv_reach h
  refine ⟨?_, hsk, ?_⟩
  · rw [hc]
    by_cases hb : s.isActiveJob <;> simp [hb]
  · intro hall
    have hzero : runningCount s = 0 := by
      rw [runningCount, List.countP_eq_zero]
      intro t ht
      simp [hall t ht]
    cases hflag : s.isActiveJob
    · rfl
    · rw [hflag, hzero] at hc
      simp at hc

/-- Witness for C4: a concrete interleaving of two overlapping
invocations, where the second is suppressed by the guard and the first
runs to completion, after which the flag is clear. -/
theorem single_flight_witness :
    runningCount ⟨false, [TaskState.finished 1 false, TaskState.skipped 0]⟩ ≤ 1 ∧
    (⟨false, [TaskState.finished 1 false, TaskState.skipped 0]⟩ : GuardSys).isActiveJob
      = false := by
  have h1 : GuardStep 1 (initSys 2) ⟨true, [TaskState.running 0, TaskState.idle]⟩ :=
    GuardStep.enter [] [TaskState.idle]
  have h2 : GuardStep 1 ⟨true, [TaskState.running 0, TaskState.idle]⟩
      ⟨true, [TaskState.running 0, TaskState.skipped 0]⟩ :=
    GuardStep.skip [TaskState.running 0] []
  have h3 : GuardStep 1 ⟨true, [TaskState.running 0, TaskState.skipped 0]⟩
      ⟨true, [TaskState.running 1, TaskState.skipped 0]⟩ :=
    GuardStep.work true [] [TaskState.skipped 0] 0 (by decide)
  have h4 : GuardStep 1 ⟨true, [TaskState.running 1, TaskState.skipped 0]⟩
      ⟨false, [TaskState.finished 1 false, TaskState.skipped 0]⟩ :=
    GuardStep.finish true false [] [TaskState.skipped 0]
  have hr : guardReach 1 (initSys 2)
      ⟨false, [TaskState.finished 1 false, TaskState.skipped 0]⟩ :=
    Relation.ReflTransGen.tail (Relation.ReflTransGen.tail
      (Relation.ReflTransGen.tail (Relation.ReflTransGen.tail
        Relation.ReflTransGen.refl h1) h2) h3) h4
  have hmain := single_flight 1 2
    ⟨false, [TaskState.finished 1 false, TaskState.skipped 0]⟩ hr
  exact ⟨hmain.1, hmain.2.2 (by decide)⟩

/-! ## C1: ordering of the publish uploads -/

theorem lookupMap_insert_self (m : List (String × String)) (k v : String) :
    lookupMap (insertMap m k v) k = some v := by
  simp [insertMap, lookupMap]

theorem lookupMap_insert_ne (m : List (String × String)) (k v k' : String)
    (h : k ≠ k') : lookupMap (insertMap m k v) k' = lookupMap m k' := by
  simp [insertMap, lookupMap, h]

theorem padStart3_len_ge (s : Str) : 3 ≤ (padStart3 s).length := by
  rw [padStart3, List.length_append, List.length_replicate]
  omega

theorem diffStateKey_ne_pointer (e : Str) : diffStateKey e ≠ STATE_FILE := by
  intro h
  have hlen := congrArg String.length h
  rw [diffStateKey] at hlen
  simp only [String.length_append] at hlen
  have h1 : 3 ≤ ((getDiffDirPathComponents e).1).length := by
    rw [show (getDiffDirPathComponents e).1
      = padStart3 (jsNumToChars (parseIntJS e / DIFF_TOP_DIR_DIVIDER)) from rfl]
    exact padStart3_len_ge _
  have h2 : 3 ≤ ((getDiffDirPathComponents e).2.1).length := by
    rw [show (getDiffDirPathComponents e).2.1
      = padStart3 (jsNumToChars (parseIntJS e % DIFF_TOP_DIR_DIVIDER / DIFF_BOTTOM_DIR_DIVIDER)) from rfl]
    exact padStart3_len_ge _
  have h3 : 3 ≤ ((getDiffDirPathComponents e).2.2).length := by
    rw [show (getDiffDirPathComponents e).2.2
      = padStart3 (jsNumToChars (parseIntJS e % DIFF_STATE_FILE_MODULO)) from rfl]
    exact padStart3_len_ge _
  have e1 : (String.mk (getDiffDirPathComponents e).1).length
      = (getDiffDirPathComponents e).1.length := rfl
  have e2 : (String.mk (getDiffDirPathComponents e).2.1).length
      = (getDiffDirPathComponents e).2.1.length := rfl
  have e3 : (String.mk (getDiffDirPathComponents e).2.2).length
      = (getDiffDirPathComponents e).2.2.length := rfl
  have hsl : ("/").length = 1 := rfl
  have hdot : (".").length = 1 := rfl
  have hsf : STATE_FILE.length = 9 := rfl
  omega

theorem diffGzKey_ne_pointer (e : Str) : diffGzKey e ≠ STATE_FILE := by
  intro h
  have hlen := congrArg String.length h
  rw [diffGzKey] at hlen
  simp only [String.length_append] at hlen
  have h1 : 3 ≤ ((getDiffDirPathComponents e).1).length := by
    rw [show (getDiffDirPathComponents e).1
      = padStart3 (jsNumToChars (parseIntJS e / DIFF_TOP_DIR_DIVIDER)) from rfl]
    exact padStart3_len_ge _
  have h2 : 3 ≤ ((getDiffDirPathComponents e).2.1).length := by
    rw [show (getDiffDirPathComponents e).2.1
      = padStart3 (jsNumToChars (parseIntJS e % DIFF_TOP_DIR_DIVIDER / DIFF_BOTTOM_DIR_DIVIDER)) from rfl]
    exact padStart3_len_ge _
  have h3 : 3 ≤ ((getDiffDirPathComponents e).2.2).length := by
    rw [show (getDiffDirPathComponents e).2.2
      = padStart3 (jsNumToChars (parseIntJS e % DIFF_STATE_FILE_MODULO)) from rfl]
    exact padStart3_len_ge _
  have e1 : (String.mk (getDiffDirPathComponents e).1).length
      = (getDiffDirPathComponents e).1.length := rfl
  have e2 : (String.mk (getDiffDirPathComponents e).2.1).length
      = (getDiffDirPathComponents e).2.1.length := rfl
  have e3 : (String.mk (getDiffDirPathComponents e).2.2).length
      = (getDiffDirPathComponents e).2.2.length := rfl
  have hsl : ("/").length = 1 := rfl
  have hdot : (".").length = 1 := rfl
  have hsf : STATE_FILE.length = 9 := rfl
  have hgz : DIFF_FILE_EXTENTION.length = 6 := rfl
  omega

/-- The world after a best-effort updateAction FAILED: only the trace
grows, whatever the mediator outcome. -/
theorem updateActionFailed_world (env : Env) (w : World) :
    (mediatorUpdateActionFailed env w).2
      = { w with trace := w.trace ++ [Ev.updateActionFailed] } := by
  simp only [mediatorUpdateActionFailed]
  by_cases h : env.updateActionOk <;> simp [h]

/-- The world after a best-effort removeLock: only the trace grows. -/
theorem removeLock_world (env : Env) (w : World) :
    (mediatorRemoveLock env w).2
      = { w with trace := w.trace ++ [Ev.removeLock] } := by
  simp only [mediatorRemoveLock]
  by_cases h : env.removeLockOk <;> simp [h]

/-- The world after the best-effort inspector call: only the trace
grows. -/
theorem osmiumFileInfo_world (env : Env) (w : World) :
    (osmiumFileInfo env w).2
      = { w with trace := w.trace ++ [Ev.collectInfo] } := by
  simp only [osmiumFileInfo]
  by_cases h : env.collectInfoOk <;> simp [h]

/-- Complete case analysis of one publish branch. -/
theorem uploadBranch_spec (env : Env) (w : World) (p : String) :
    (∃ c, uploadBranch env w p =
        (Except.ok (), { w with trace := w.trace ++ [Ev.s3Put p], remote := insertMap w.remote p c }) ∧
      env.s3PutFail p = false) ∨
    (∃ e, uploadBranch env w p = (Except.error e, w)) ∨
    (∃ e, uploadBranch env w p =
        (Except.error e, { w with trace := w.trace ++ [Ev.s3Put p] }) ∧
      env.s3PutFail p = true) := by
  rw [uploadBranch, fsRepoReadFile]
  by_cases hr : env.fsReadFail (changesDir ++ "/" ++ p)
  · rw [if_pos hr]
    exact Or.inr (Or.inl ⟨JsErr.withCode exitFsError, rfl⟩)
  · rw [if_neg hr]
    cases hl : lookupMap w.fs (changesDir ++ "/" ++ p) with
    | none => exact Or.inr (Or.inl ⟨JsErr.withCode exitFsError, rfl⟩)
    | some c =>
      simp only [s3PutObject]
      by_cases hp : env.s3PutFail p
      · rw [if_pos hp]
        exact Or.inr (Or.inr ⟨JsErr.withCode exitS3Error, rfl, hp⟩)
      · rw [if_neg hp]
        exact Or.inl ⟨c, rfl, Bool.of_not_eq_true hp⟩

/-- Case analysis of a repository file read: it never changes the world. -/
theorem fsRepoReadFile_spec (env : Env) (w : World) (p : String) :
    (∃ c, fsRepoReadFile env w p = (Except.ok c, w) ∧ lookupMap w.fs p = some c) ∨
    (∃ e2, fsRepoReadFile env w p = (Except.error e2, w)) := by
  rw [fsRepoReadFile]
  by_cases h : env.fsReadFail p
  · rw [if_pos h]
    exact Or.inr ⟨_, rfl⟩
  · rw [if_neg h]
    cases hl : lookupMap w.fs p with
    | none => exact Or.inr ⟨_, rfl⟩
    | some c => exact Or.inl ⟨c, rfl, rfl⟩

/-- Case analysis of an object put: the attempt is always traced, and the
remote map is updated exactly on success. -/
theorem s3PutObject_spec (env : Env) (w : World) (k c : String) :
    (s3PutObject env w k c =
        (Except.ok (), { w with trace := w.trace ++ [Ev.s3Put k], remote := insertMap w.remote k c }) ∧
      env.s3PutFail k = false) ∨
    (∃ e2, s3PutObject env w k c =
        (Except.error e2, { w with trace := w.trace ++ [Ev.s3Put k] }) ∧
      env.s3PutFail k = true) := by
  simp only [s3PutObject]
  by_cases h : env.s3PutFail k
  · rw [if_pos h]
    exact Or.inr ⟨_, rfl, h⟩
  · rw [if_neg h]
    exact Or.inl ⟨rfl, Bool.of_not_eq_true h⟩

theorem diffGzKey_ne_diffStateKey (e : Str) : diffGzKey e ≠ diffStateKey e := by
  intro h
  have hlen := congrArg String.length h
  rw [diffGzKey, diffStateKey] at hlen
  simp only [String.length_append] at hlen
  have hsf : STATE_FILE.length = 9 := rfl
  have hgz : DIFF_FILE_EXTENTION.length = 6 := rfl
  omega

/-- C1: in the publish phase of a non-null job, whenever the pointer
object put appears in the trace, both per-sequence artifact puts appear
strictly before it and both succeeded (their keys are present in the
remote map and their put oracles report success); and if either
per-sequence put fails, the pointer put never happens. -/
theorem publish_upload_order (env : Env) (w : World) (e : Str)
    (htr : w.trace = []) :
    (Ev.s3Put STATE_FILE ∈ (uploadDiff env w e).2.trace →
      ∃ pre post, (uploadDiff env w e).2.trace
          = pre ++ Ev.s3Put STATE_FILE :: post ∧
        Ev.s3Put (diffStateKey e) ∈ pre ∧ Ev.s3Put (diffGzKey e) ∈ pre ∧
        env.s3PutFail (diffStateKey e) = false ∧
        env.s3PutFail (diffGzKey e) = false ∧
        lookupMap (uploadDiff env w e).2.remote (diffStateKey e) ≠ none ∧
        lookupMap (uploadDiff env w e).2.remote (diffGzKey e) ≠ none) ∧
    ((env.s3PutFail (diffStateKey e) = true ∨ env.s3PutFail (diffGzKey e) = true) →
      Ev.s3Put STATE_FILE ∉ (uploadDiff env w e).2.trace) := by
  have hne1 : STATE_FILE ≠ diffStateKey e := Ne.symm (diffStateKey_ne_pointer e)
  have hne2 : STATE_FILE ≠ diffGzKey e := Ne.symm (diffGzKey_ne_pointer e)
  have h1spec := uploadBranch_spec env w (diffStateKey e)
  rcases h1spec with ⟨c1, h1, hp1⟩ | ⟨e1, h1⟩ | ⟨e1, h1, hp1⟩
  all_goals have h2spec := uploadBranch_spec env (uploadBranch env w (diffStateKey e)).2 (diffGzKey e)
  all_goals rcases h2spec with ⟨c2, h2, hp2⟩ | ⟨e2, h2⟩ | ⟨e2, h2, hp2⟩
  all_goals rw [h1] at h2
  all_goals dsimp only at h2
  -- case 1: both branches ok, continue into the pointer stage
  · have h3spec := fsRepoReadFile_spec env
      (uploadBranch env (uploadBranch env w (diffStateKey e)).2 (diffGzKey e)).2
      osmdbtStatePath
    rw [h1] at h3spec
    dsimp only at h3spec
    rw [h2] at h3spec
    dsimp only at h3spec
    rcases h3spec with ⟨stc, h3, hl3⟩ | ⟨e3, h3⟩
    · have h4spec := s3PutObject_spec env
        (fsRepoReadFile env
          (uploadBranch env (uploadBranch env w (diffStateKey e)).2 (diffGzKey e)).2
          osmdbtStatePath).2 STATE_FILE stc
      rw [h1] at h4spec
      dsimp only at h4spec
      rw [h2] at h4spec
      dsimp only at h4spec
      rw [h3] at h4spec
      dsimp only at h4spec
      rcases h4spec with ⟨h4, hp4⟩ | ⟨e4, h4, hp4⟩
      · constructor
        · intro _
          refine ⟨[Ev.s3Put (diffStateKey e), Ev.s3Put (diffGzKey e)], [],
            ?_, by simp, by simp, hp1, hp2, ?_, ?_⟩
          · simp only [uploadDiff, h1, h2, h3, h4]
            simp [htr]
          · simp only [uploadDiff, h1, h2, h3, h4]
            rw [lookupMap_insert_ne _ _ _ _ hne1,
              lookupMap_insert_ne _ _ _ _ (diffGzKey_ne_diffStateKey e),
              lookupMap_insert_self]
            simp
          · simp only [uploadDiff, h1, h2, h3, h4]
            rw [lookupMap_insert_ne _ _ _ _ hne2, lookupMap_insert_self]
            simp
        · intro hor
          rcases hor with hcon | hcon
          · rw [hp1] at hcon
            exact Bool.noConfusion hcon
          · rw [hp2] at hcon
            exact Bool.noConfusion hcon
      · constructor
        · intro _
          refine ⟨[Ev.s3Put (diffStateKey e), Ev.s3Put (diffGzKey e)],
            [Ev.updateActionFailed],
            ?_, by simp, by simp, hp1, hp2, ?_, ?_⟩
          · simp only [uploadDiff, h1, h2, h3, h4, updateActionFailed_world]
            simp [htr]
          · simp only [uploadDiff, h1, h2, h3, h4, updateActionFailed_world]
            rw [lookupMap_insert_ne _ _ _ _ (diffGzKey_ne_diffStateKey e),
              lookupMap_insert_self]
            simp
          · simp only [uploadDiff, h1, h2, h3, h4, updateActionFailed_world]
            rw [lookupMap_insert_self]
            simp
        · intro hor
          rcases hor with hcon | hcon
          · rw [hp1] at hcon
            exact Bool.noConfusion hcon
          · rw [hp2] at hcon
            exact Bool.noConfusion hcon
    · constructor
      · intro hmem
        simp only [uploadDiff, h1, h2, h3, updateActionFailed_world] at hmem
        simp [htr, hne1, hne2] at hmem
      · intro hor
        rcases hor with hcon | hcon
        · rw [hp1] at hcon
          exact Bool.noConfusion hcon
        · rw [hp2] at hcon
          exact Bool.noConfusion hcon
  -- remaining eight cases: at least one branch failed, no pointer put
  all_goals constructor
  all_goals first
    | (intro hmem
       simp only [uploadDiff, h1, h2, updateActionFailed_world] at hmem
       simp [htr, hne1, hne2] at hmem)
    | (intro _
       simp only [uploadDiff, h1, h2, updateActionFailed_world]
       simp [htr, hne1, hne2])

/-! ## A symbolic run of the phases before commit -/

theorem mediatorReserveAccess_ok (env : Env) (hres : env.reserveOk = true) :
    ∀ w : World, mediatorReserveAccess env w
      = (Except.ok (), { w with trace := w.trace ++ [Ev.reserveAccess] }) := by
  intro w
  simp [mediatorReserveAccess, hres]

theorem prepareEnvironment_ok (env : Env) (hmk : ∀ d, env.mkdirFail d = false) :
    ∀ w : World, prepareEnvironment env w = (Except.ok (), w) := by
  intro w
  simp [prepareEnvironment, hmk]

theorem pullStateFile_ok (env : Env) (P : String)
    (hg : env.s3GetFail STATE_FILE = false)
    (hw1 : env.fsWriteFail osmdbtStatePath = false)
    (hw2 : env.fsWriteFail osmdbtStateBackupPath = false) :
    ∀ w : World, lookupMap w.remote STATE_FILE = some P →
      pullStateFile env w = (Except.ok (),
        { w with fs := insertMap (insertMap w.fs osmdbtStatePath P) osmdbtStateBackupPath P, trace := w.trace ++ [Ev.s3Get STATE_FILE] }) := by
  intro w hP
  simp only [pullStateFile, s3GetObject, hg, fsRepoWriteFile, hw1, hw2]
  simp [hP]

theorem getSequenceNumberM_ok (env : Env)
    (hr : env.fsReadFail osmdbtStatePath = false) :
    ∀ (w : World) (C : String) (s : Str),
      lookupMap w.fs osmdbtStatePath = some C →
      extractSequenceNumber C.data = some s →
      getSequenceNumberM env w = (Except.ok s, w) := by
  intro w C s hl hx
  simp only [getSequenceNumberM, fsRepoReadFile, hr]
  simp [hl, parseStateContent, hx]

theorem osmdbtGetLog_ok (env : Env) (hgl : env.getLogOk = true) :
    ∀ w : World, osmdbtGetLog env w = (Except.ok (),
      { w with fs := env.getLogFs w.fs, logFiles := w.logFiles ++ env.getLogNewLogs, trace := w.trace ++ [Ev.getLog] }) := by
  intro w
  simp [osmdbtGetLog, hgl]

theorem osmdbtCreateDiff_ok (env : Env) (hcd : env.createDiffOk = true) :
    ∀ w : World, osmdbtCreateDiff env w = (Except.ok (),
      { w with fs := env.createDiffFs w.fs, trace := w.trace ++ [Ev.createDiff] }) := by
  intro w
  simp [osmdbtCreateDiff, hcd]

/-- Symbolic execution of startJob through the phases before commit: under
successful reserve, prepare, pull, state reads and tool runs, the job
either short-circuits on an unchanged sequence number or proceeds to the
tail with the end state. P is the pulled pointer content, fs2 the staging
tree after the tools ran, E the state file content after the diff was
built. -/
theorem startJob_run (env : Env) (w : World) (P E : String) (s e : Str)
    (fs2 : List (String × String))
    (hres : env.reserveOk = true)
    (hmk : ∀ d, env.mkdirFail d = false)
    (hg : env.s3GetFail STATE_FILE = false)
    (hP : lookupMap w.remote STATE_FILE = some P)
    (hw1 : env.fsWriteFail osmdbtStatePath = false)
    (hw2 : env.fsWriteFail osmdbtStateBackupPath = false)
    (hr : env.fsReadFail osmdbtStatePath = false)
    (hgl : env.getLogOk = true)
    (hcd : env.createDiffOk = true)
    (hfs2 : env.createDiffFs (env.getLogFs
      (insertMap (insertMap w.fs osmdbtStatePath P) osmdbtStateBackupPath P)) = fs2)
    (hs : extractSequenceNumber P.data = some s)
    (hE : lookupMap fs2 osmdbtStatePath = some E)
    (he : extractSequenceNumber E.data = some e) :
    startJob env w =
      if s = e then
        (Except.ok (), { fs := fs2, remote := w.remote, logFiles := w.logFiles ++ env.getLogNewLogs, trace := w.trace ++ [Ev.reserveAccess, Ev.s3Get STATE_FILE, Ev.getLog, Ev.createDiff, Ev.removeLock] })
      else
        startJobTail env { fs := fs2, remote := w.remote, logFiles := w.logFiles ++ env.getLogNewLogs, trace := w.trace ++ [Ev.reserveAccess, Ev.s3Get STATE_FILE, Ev.getLog, Ev.createDiff] } e := by
  have hbs : osmdbtStateBackupPath ≠ osmdbtStatePath := by decide
  have hlookA : lookupMap
      (insertMap (insertMap w.fs osmdbtStatePath P) osmdbtStateBackupPath P)
      osmdbtStatePath = some P := by
    rw [lookupMap_insert_ne _ _ _ _ hbs, lookupMap_insert_self]
  simp only [startJob, mediatorReserveAccess_ok env hres,
    prepareEnvironment_ok env hmk, pullStateFile_ok env P hg hw1 hw2,
    osmdbtGetLog_ok env hgl, osmdbtCreateDiff_ok env hcd, removeLock_world, hP,
    List.append_assoc, List.cons_append, List.nil_append]
  have hga := getSequenceNumberM_ok env hr
    { fs := insertMap (insertMap w.fs osmdbtStatePath P) osmdbtStateBackupPath P, remote := w.remote, logFiles := w.logFiles, trace := w.trace ++ [Ev.reserveAccess, Ev.s3Get STATE_FILE] }
    P s hlookA hs
  simp only [hga]
  simp only [List.append_assoc, List.cons_append, List.nil_append]
  have hgb := getSequenceNumberM_ok env hr
    { fs := env.createDiffFs (env.getLogFs (insertMap (insertMap w.fs osmdbtStatePath P) osmdbtStateBackupPath P)), remote := w.remote, logFiles := w.logFiles ++ env.getLogNewLogs, trace := w.trace ++ [Ev.reserveAccess, Ev.s3Get STATE_FILE, Ev.getLog, Ev.createDiff] }
    E e (by dsimp only; rw [hfs2]; exact hE) he
  simp only [hgb]
  by_cases hse : s = e
  · simp only [if_pos hse]
    simp [hfs2, List.append_assoc]
  · simp only [if_neg hse]
    simp [hfs2, List.append_assoc]

theorem mediatorCreateAction_ok (env : Env) (hca : env.createActionOk = true) :
    ∀ (w : World) (n : Nat), mediatorCreateAction env w n
      = (Except.ok (), { w with trace := w.trace ++ [Ev.createAction n] }) := by
  intro w n
  simp [mediatorCreateAction, hca]

/-- A fully successful publish fan-out: both artifacts and then the
pointer are uploaded, in that order. -/
theorem uploadDiff_ok (env : Env) (e : Str) (a1 a2 E : String)
    (hr1 : env.fsReadFail (changesDir ++ "/" ++ diffStateKey e) = false)
    (hr2 : env.fsReadFail (changesDir ++ "/" ++ diffGzKey e) = false)
    (hr3 : env.fsReadFail osmdbtStatePath = false)
    (hp1 : env.s3PutFail (diffStateKey e) = false)
    (hp2 : env.s3PutFail (diffGzKey e) = false)
    (hp3 : env.s3PutFail STATE_FILE = false) :
    ∀ w : World,
      lookupMap w.fs (changesDir ++ "/" ++ diffStateKey e) = some a1 →
      lookupMap w.fs (changesDir ++ "/" ++ diffGzKey e) = some a2 →
      lookupMap w.fs osmdbtStatePath = some E →
      uploadDiff env w e = (Except.ok (),
        { w with remote := insertMap (insertMap (insertMap w.remote (diffStateKey e) a1) (diffGzKey e) a2) STATE_FILE E, trace := w.trace ++ [Ev.s3Put (diffStateKey e), Ev.s3Put (diffGzKey e), Ev.s3Put STATE_FILE] }) := by
  intro w h1 h2 h3
  simp only [uploadDiff, uploadBranch, fsRepoReadFile, hr1, hr2, hr3,
    s3PutObject, hp1, hp2, hp3]
  simp [h1, h2, h3, List.append_assoc]

/-- Symbolic execution of the non-null tail through announce, release and
publish: under successful createAction and uploads the job proceeds to the
commit phase with the three new remote objects and the five new events. -/
theorem startJobTail_run (env : Env) (e : Str) (a1 a2 E : String)
    (hca : env.createActionOk = true)
    (hr1 : env.fsReadFail (changesDir ++ "/" ++ diffStateKey e) = false)
    (hr2 : env.fsReadFail (changesDir ++ "/" ++ diffGzKey e) = false)
    (hr3 : env.fsReadFail osmdbtStatePath = false)
    (hp1 : env.s3PutFail (diffStateKey e) = false)
    (hp2 : env.s3PutFail (diffGzKey e) = false)
    (hp3 : env.s3PutFail STATE_FILE = false) :
    ∀ w : World,
      lookupMap w.fs (changesDir ++ "/" ++ diffStateKey e) = some a1 →
      lookupMap w.fs (changesDir ++ "/" ++ diffGzKey e) = some a2 →
      lookupMap w.fs osmdbtStatePath = some E →
      startJobTail env w e = startJobCommitPhase env
        { w with remote := insertMap (insertMap (insertMap w.remote (diffStateKey e) a1) (diffGzKey e) a2) STATE_FILE E, trace := w.trace ++ [Ev.createAction (parseIntJS e), Ev.removeLock, Ev.s3Put (diffStateKey e), Ev.s3Put (diffGzKey e), Ev.s3Put STATE_FILE] } := by
  intro w h1 h2 h3
  simp only [startJobTail, mediatorCreateAction_ok env hca, removeLock_world,
    List.append_assoc, List.cons_append, List.nil_append]
  have hu := uploadDiff_ok env e a1 a2 E hr1 hr2 hr3 hp1 hp2 hp3
    { w with trace := w.trace ++ [Ev.createAction (parseIntJS e), Ev.removeLock] }
    (by dsimp only; exact h1) (by dsimp only; exact h2) (by dsimp only; exact h3)
  simp only [hu]
  simp [List.append_assoc]

/-! ## C5 and C9: the null-diff short-circuit and announce failures -/

/-- C5: when the sequence number read after the diff builder equals the
one read before it, the job attempts removeLock exactly once with any
error swallowed (no hypothesis on the removeLock outcome), returns
success with exit code 0, creates no action, performs no object-store
uploads and never invokes rollback. -/
theorem null_diff_short_circuit (env : Env) (w : World) (P E : String)
    (s : Str) (fs2 : List (String × String))
    (htr : w.trace = [])
    (hres : env.reserveOk = true)
    (hmk : ∀ d, env.mkdirFail d = false)
    (hg : env.s3GetFail STATE_FILE = false)
    (hP : lookupMap w.remote STATE_FILE = some P)
    (hw1 : env.fsWriteFail osmdbtStatePath = false)
    (hw2 : env.fsWriteFail osmdbtStateBackupPath = false)
    (hr : env.fsReadFail osmdbtStatePath = false)
    (hgl : env.getLogOk = true)
    (hcd : env.createDiffOk = true)
    (hfs2 : env.createDiffFs (env.getLogFs
      (insertMap (insertMap w.fs osmdbtStatePath P) osmdbtStateBackupPath P)) = fs2)
    (hs : extractSequenceNumber P.data = some s)
    (hE : lookupMap fs2 osmdbtStatePath = some E)
    (he : extractSequenceNumber E.data = some s) :
    (startJob env w).1 = Except.ok () ∧
    (executeJobRun env w).exitCode = exitSuccess ∧
    (startJob env w).2.trace.count Ev.removeLock = 1 ∧
    (∀ n, Ev.createAction n ∉ (startJob env w).2.trace) ∧
    (∀ k, Ev.s3Put k ∉ (startJob env w).2.trace) ∧
    Ev.rollback ∉ (startJob env w).2.trace := by
  have hrun := startJob_run env w P E s s fs2 hres hmk hg hP hw1 hw2 hr hgl hcd
    hfs2 hs hE he
  rw [if_pos rfl] at hrun
  refine ⟨by rw [hrun], ?_, ?_, ?_, ?_, ?_⟩
  · simp [executeJobRun, hrun, exitSuccess]
  · rw [hrun, htr]
    simp [List.count_cons]
  · intro n
    rw [hrun, htr]
    simp
  · intro k
    rw [hrun, htr]
    simp
  · rw [hrun, htr]
    simp

/-- C9: in a non-null job, a failure of mediator createAction propagates
out of the engine as the thrown error, classified as the general error
exit code, after the createAction attempt and before any object-store
upload. -/
theorem create_action_failure_propagates (env : Env) (w : World) (P E : String)
    (s e : Str) (fs2 : List (String × String))
    (htr : w.trace = [])
    (hres : env.reserveOk = true)
    (hmk : ∀ d, env.mkdirFail d = false)
    (hg : env.s3GetFail STATE_FILE = false)
    (hP : lookupMap w.remote STATE_FILE = some P)
    (hw1 : env.fsWriteFail osmdbtStatePath = false)
    (hw2 : env.fsWriteFail osmdbtStateBackupPath = false)
    (hr : env.fsReadFail osmdbtStatePath = false)
    (hgl : env.getLogOk = true)
    (hcd : env.createDiffOk = true)
    (hfs2 : env.createDiffFs (env.getLogFs
      (insertMap (insertMap w.fs osmdbtStatePath P) osmdbtStateBackupPath P)) = fs2)
    (hs : extractSequenceNumber P.data = some s)
    (hE : lookupMap fs2 osmdbtStatePath = some E)
    (he : extractSequenceNumber E.data = some e)
    (hneq : s ≠ e)
    (hca : env.createActionOk = false) :
    (startJob env w).1 = Except.error JsErr.plain ∧
    (executeJobRun env w).exitCode = exitGeneralError ∧
    Ev.createAction (parseIntJS e) ∈ (startJob env w).2.trace ∧
    (∀ k, Ev.s3Put k ∉ (startJob env w).2.trace) ∧
    Ev.removeLock ∉ (startJob env w).2.trace := by
  have hrun := startJob_run env w P E s e fs2 hres hmk hg hP hw1 hw2 hr hgl hcd
    hfs2 hs hE he
  rw [if_neg hneq] at hrun
  have htail : startJob env w = (Except.error JsErr.plain,
      { fs := fs2, remote := w.remote, logFiles := w.logFiles ++ env.getLogNewLogs, trace := w.trace ++ [Ev.reserveAccess, Ev.s3Get STATE_FILE, Ev.getLog, Ev.createDiff] ++ [Ev.createAction (parseIntJS e)] }) := by
    rw [hrun, startJobTail]
    simp [mediatorCreateAction, hca]
  refine ⟨by rw [htail], ?_, ?_, ?_, ?_⟩
  · simp [executeJobRun, htail, classifyErr, exitGeneralError]
  · rw [htail, htr]
    simp
  · intro k
    rw [htail, htr]
    simp
  · rw [htail, htr]
    simp

/-! ## Concrete environments and worlds used by the witnesses -/

/-- An environment where every external call succeeds; the tools advance
the state file from 665 to 667 and produce the per-sequence artifacts
under the changes directory. -/
def happyEnv : Env :=
  { reserveOk := true, mkdirFail := fun _ => false, s3GetFail := fun _ => false, s3PutFail := fun _ => false, fsReadFail := fun _ => false, fsWriteFail := fun _ => false, readdirFail := false, renameFail := fun _ => false, unlinkFail := fun _ => false, getLogOk := true, getLogFs := fun fs => fs, getLogNewLogs := ["0001.osc.done"], createDiffOk := true, createDiffFs := fun fs => insertMap (insertMap (insertMap fs osmdbtStatePath "sequenceNumber=667") "changes/000/000/667.state.txt" "sequenceNumber=667") "changes/000/000/667.osc.gz" "diffdata", catchupOk := true, createActionOk := true, removeLockOk := true, updateActionOk := true, collectInfoOk := true }

/-- An initial world whose remote pointer holds sequence number 665. -/
def startWorld : World :=
  { fs := [], remote := [(STATE_FILE, "sequenceNumber=665")], logFiles := [], trace := [] }

/-- A world positioned at the publish phase with the produced artifacts
present in the staging tree. -/
def pubWorld : World :=
  { fs := [(osmdbtStatePath, "sequenceNumber=667"), ("changes/000/000/667.state.txt", "sequenceNumber=667"), ("changes/000/000/667.osc.gz", "diffdata")], remote := [], logFiles := [], trace := [] }

/-- Witness for C1 at a concrete publish: both per-sequence puts precede
the pointer put and succeeded. -/
theorem publish_upload_order_witness :
    ∃ pre post, (uploadDiff happyEnv pubWorld (("667").data)).2.trace
        = pre ++ Ev.s3Put STATE_FILE :: post ∧
      Ev.s3Put (diffStateKey (("667").data)) ∈ pre ∧
      Ev.s3Put (diffGzKey (("667").data)) ∈ pre ∧
      happyEnv.s3PutFail (diffStateKey (("667").data)) = false ∧
      happyEnv.s3PutFail (diffGzKey (("667").data)) = false ∧
      lookupMap (uploadDiff happyEnv pubWorld (("667").data)).2.remote
        (diffStateKey (("667").data)) ≠ none ∧
      lookupMap (uploadDiff happyEnv pubWorld (("667").data)).2.remote
        (diffGzKey (("667").data)) ≠ none :=
  (publish_upload_order happyEnv pubWorld (("667").data) rfl).1 (by decide)

/-- Witness for C5 on a concrete null-diff job: the tools leave the
sequence number unchanged. -/
theorem null_diff_short_circuit_witness :
    (startJob { happyEnv with createDiffFs := fun fs => fs } startWorld).1
        = Except.ok () ∧
    (executeJobRun { happyEnv with createDiffFs := fun fs => fs } startWorld).exitCode
        = exitSuccess :=
  have h := null_diff_short_circuit { happyEnv with createDiffFs := fun fs => fs }
    startWorld "sequenceNumber=665" "sequenceNumber=665" (("665").data)
    (insertMap (insertMap [] osmdbtStatePath "sequenceNumber=665")
      osmdbtStateBackupPath "sequenceNumber=665")
    rfl rfl (fun d => rfl) rfl rfl rfl rfl rfl rfl rfl rfl (by rfl) rfl (by rfl)
  ⟨h.1, h.2.1⟩

/-- Witness for C9 on a concrete job whose createAction call rejects. -/
theorem create_action_failure_propagates_witness :
    (startJob { happyEnv with createActionOk := false } startWorld).1
        = Except.error JsErr.plain ∧
    (executeJobRun { happyEnv with createActionOk := false } startWorld).exitCode
        = exitGeneralError :=
  have h := create_action_failure_propagates
    { happyEnv with createActionOk := false } startWorld
    "sequenceNumber=665" "sequenceNumber=667" (("665").data) (("667").data)
    (insertMap (insertMap (insertMap
      (insertMap (insertMap [] osmdbtStatePath "sequenceNumber=665")
        osmdbtStateBackupPath "sequenceNumber=665")
      osmdbtStatePath "sequenceNumber=667")
      "changes/000/000/667.state.txt" "sequenceNumber=667")
      "changes/000/000/667.osc.gz" "diffdata")
    rfl rfl (fun d => rfl) rfl rfl rfl rfl rfl rfl rfl rfl (by rfl) rfl (by rfl)
    (by decide) rfl
  ⟨h.1, h.2.1⟩

/-! ## The commit, rollback and cleanup phases -/

/-- The mark fan-out under successful renames: it touches only the log
directory listing and the trace, preserves the number of log files, and
emits only rename events. -/
theorem fanOut_markOne_ok (env : Env) (hren : ∀ n, env.renameFail n = false) :
    ∀ (names : List String) (w : World), ∃ lf tr,
      fanOut (markOne env) w names
        = (Except.ok (), { fs := w.fs, remote := w.remote, logFiles := lf, trace := w.trace ++ tr }) ∧
      lf.length = w.logFiles.length ∧
      (∀ ev ∈ tr, ∃ a b, ev = Ev.renameLog a b) := by
  intro names
  induction names with
  | nil =>
    intro w
    refine ⟨w.logFiles, [], by simp [fanOut], rfl, by simp⟩
  | cons x xs ih =>
    intro w
    by_cases hx : x.endsWith doneSuffix
    · have hm : markOne env w x = (Except.ok (),
          { fs := w.fs, remote := w.remote, logFiles := List.map (fun y => if y = x then x.dropRight doneSuffix.length else y) w.logFiles, trace := w.trace ++ [Ev.renameLog x (x.dropRight doneSuffix.length)] }) := by
        simp only [markOne, if_pos hx, fsRepoRenameLog, hren]
        simp
      obtain ⟨lf, tr, hfo, hlen, htr⟩ := ih
        { fs := w.fs, remote := w.remote, logFiles := List.map (fun y => if y = x then x.dropRight doneSuffix.length else y) w.logFiles, trace := w.trace ++ [Ev.renameLog x (x.dropRight doneSuffix.length)] }
      refine ⟨lf, Ev.renameLog x (x.dropRight doneSuffix.length) :: tr, ?_, ?_, ?_⟩
      · simp only [fanOut, hm, hfo]
        simp [List.append_assoc]
      · rw [hlen]
        simp
      · intro ev hev
        rcases List.mem_cons.mp hev with h | h
        · exact ⟨x, x.dropRight doneSuffix.length, h⟩
        · exact htr ev h
    · obtain ⟨lf, tr, hfo, hlen, htr⟩ := ih w
      refine ⟨lf, tr, ?_, hlen, htr⟩
      simp only [fanOut, markOne, if_neg hx, hfo]

/-- A symbolic commit run under successful readdir and renames: the staging
tree and the remote store are untouched, the log listing keeps its length,
the emitted events are renames plus the final catchup attempt, and the
outcome is decided by the catchup tool. -/
theorem commitChanges_run (env : Env) (hrd : env.readdirFail = false)
    (hren : ∀ n, env.renameFail n = false) :
    ∀ w : World, ∃ lf tr,
      commitChanges env w
        = ((if env.catchupOk then Except.ok () else Except.error (JsErr.withCode exitOsmdbtError)), { fs := w.fs, remote := w.remote, logFiles := lf, trace := w.trace ++ tr }) ∧
      lf.length = w.logFiles.length ∧
      (∀ ev ∈ tr, ev = Ev.catchup ∨ ∃ a b, ev = Ev.renameLog a b) := by
  intro w
  obtain ⟨lf, tr, hfo, hlen, htr⟩ := fanOut_markOne_ok env hren w.logFiles w
  refine ⟨lf, tr ++ [Ev.catchup], ?_, hlen, ?_⟩
  · simp only [commitChanges, markLogFilesForCatchup, fsRepoReaddirLogs, hrd]
    simp only [Bool.false_eq_true, if_false, hfo]
    by_cases hcat : env.catchupOk
    · simp [osmdbtCatchup, hcat, List.append_assoc]
    · simp [osmdbtCatchup, hcat, List.append_assoc]
  · intro ev hev
    rcases List.mem_append.mp hev with h | h
    · rcases htr ev h with ⟨a, b, hab⟩
      exact Or.inr ⟨a, b, hab⟩
    · rcases List.mem_cons.mp h with h | h
      · exact Or.inl h
      · simp at h

/-- A successful rollback: the backup content is put to the pointer key. -/
theorem rollback_ok (env : Env) (B : String)
    (hrb : env.fsReadFail osmdbtStateBackupPath = false)
    (hpp : env.s3PutFail STATE_FILE = false) :
    ∀ w : World, lookupMap w.fs osmdbtStateBackupPath = some B →
      rollback env w = (Except.ok (),
        { w with remote := insertMap w.remote STATE_FILE B, trace := w.trace ++ [Ev.rollback, Ev.s3Put STATE_FILE] }) := by
  intro w hB
  simp only [rollback, fsRepoReadFile, hrb, s3PutObject, hpp]
  simp [hB, List.append_assoc]

/-- A rollback whose backup read fails: the rollback error with exit code
104 is thrown. -/
theorem rollback_readFail (env : Env)
    (hrb : env.fsReadFail osmdbtStateBackupPath = true) :
    ∀ w : World, rollback env w
      = (Except.error (JsErr.withCode exitRollbackFailureError), { w with trace := w.trace ++ [Ev.rollback] }) := by
  intro w
  simp only [rollback, fsRepoReadFile, hrb]
  simp

/-- Sequential removal of each name of the second list from the first,
mirroring the per-name unlink filters of the cleanup fan-out. -/
def removeList : List String → List String → List String
  | l, [] => l
  | l, n :: ns => removeList (l.filter (fun x => x ≠ n)) ns

theorem removeList_nil_of_subset : ∀ (names l : List String),
    (∀ x ∈ l, x ∈ names) → removeList l names = [] := by
  intro names
  induction names with
  | nil =>
    intro l hsub
    cases l with
    | nil => rfl
    | cons a t => exact absurd (hsub a (List.mem_cons_self a t)) (by simp)
  | cons n ns ih =>
    intro l hsub
    rw [removeList]
    refine ih _ ?_
    intro x hx
    have hmem := List.mem_of_mem_filter hx
    have hne : x ≠ n := by
      have := List.of_mem_filter hx
      simpa using this
    rcases List.mem_cons.mp (hsub x hmem) with h | h
    · exact absurd h hne
    · exact h

/-- The cleanup fan-out under all-successful unlinks removes exactly the
listed names and emits only unlink events. -/
theorem fanOut_unlink_ok (env : Env) :
    ∀ (names : List String) (w : World),
      (∀ n ∈ names, env.unlinkFail n = false) → ∃ tr,
      fanOut (fun w2 n => fsRepoUnlinkLog env w2 n) w names
        = (Except.ok (), { fs := w.fs, remote := w.remote, logFiles := removeList w.logFiles names, trace := w.trace ++ tr }) ∧
      (∀ ev ∈ tr, ∃ n, ev = Ev.unlinkLog n) := by
  intro names
  induction names with
  | nil =>
    intro w _
    refine ⟨[], by simp [fanOut, removeList], by simp⟩
  | cons x xs ih =>
    intro w hun
    have hx : env.unlinkFail x = false := hun x (List.mem_cons_self x xs)
    have hu : fsRepoUnlinkLog env w x = (Except.ok (),
        { fs := w.fs, remote := w.remote, logFiles := w.logFiles.filter (fun y => y ≠ x), trace := w.trace ++ [Ev.unlinkLog x] }) := by
      simp only [fsRepoUnlinkLog, hx]
      simp
    obtain ⟨tr, hfo, htr⟩ := ih
      { fs := w.fs, remote := w.remote, logFiles := w.logFiles.filter (fun y => y ≠ x), trace := w.trace ++ [Ev.unlinkLog x] }
      (fun n hn => hun n (List.mem_cons_of_mem x hn))
    refine ⟨Ev.unlinkLog x :: tr, ?_, ?_⟩
    · simp only [fanOut, hu, hfo]
      simp [removeList, List.append_assoc]
    · intro ev hev
      rcases List.mem_cons.mp hev with h | h
      · exact ⟨x, h⟩
      · exact htr ev h

/-- Frame property of the cleanup fan-out: whatever the unlink outcomes,
only the log listing and the trace change, the trace grows by unlink
events only, and a failure carries the fs exit code. -/
theorem fanOut_unlink_frame (env : Env) :
    ∀ (names : List String) (w : World), ∃ r lf tr,
      fanOut (fun w2 n => fsRepoUnlinkLog env w2 n) w names
        = (r, { fs := w.fs, remote := w.remote, logFiles := lf, trace := w.trace ++ tr }) ∧
      (∀ ev ∈ tr, ∃ n, ev = Ev.unlinkLog n) ∧
      (r = Except.ok () ∨ r = Except.error (JsErr.withCode exitFsError)) := by
  intro names
  induction names with
  | nil =>
    intro w
    exact ⟨Except.ok (), w.logFiles, [], by simp [fanOut], by simp, Or.inl rfl⟩
  | cons x xs ih =>
    intro w
    by_cases hx : env.unlinkFail x = true
    · have hu : fsRepoUnlinkLog env w x = (Except.error (JsErr.withCode exitFsError),
          { fs := w.fs, remote := w.remote, logFiles := w.logFiles, trace := w.trace ++ [Ev.unlinkLog x] }) := by
        simp only [fsRepoUnlinkLog, hx]
        simp
      obtain ⟨r, lf, tr, hfo, htr, hrr⟩ := ih
        { fs := w.fs, remote := w.remote, logFiles := w.logFiles, trace := w.trace ++ [Ev.unlinkLog x] }
      refine ⟨Except.error (JsErr.withCode exitFsError), lf, Ev.unlinkLog x :: tr, ?_, ?_, Or.inr rfl⟩
      · simp only [fanOut, hu, hfo]
        simp [List.append_assoc]
      · intro ev hev
        rcases List.mem_cons.mp hev with h | h
        · exact ⟨x, h⟩
        · exact htr ev h
    · have hxf : env.unlinkFail x = false := Bool.of_not_eq_true hx
      have hu : fsRepoUnlinkLog env w x = (Except.ok (),
          { fs := w.fs, remote := w.remote, logFiles := w.logFiles.filter (fun y => y ≠ x), trace := w.trace ++ [Ev.unlinkLog x] }) := by
        simp only [fsRepoUnlinkLog, hxf]
        simp
      obtain ⟨r, lf, tr, hfo, htr, hrr⟩ := ih
        { fs := w.fs, remote := w.remote, logFiles := w.logFiles.filter (fun y => y ≠ x), trace := w.trace ++ [Ev.unlinkLog x] }
      refine ⟨r, lf, Ev.unlinkLog x :: tr, ?_, ?_, hrr⟩
      · simp only [fanOut, hu, hfo]
        rcases hrr with h | h
        · rw [h]
          simp [List.append_assoc]
        · rw [h]
          simp [List.append_assoc]
      · intro ev hev
        rcases List.mem_cons.mp hev with h | h
        · exact ⟨x, h⟩
        · exact htr ev h

/-- If any listed unlink fails, the cleanup fan-out fails with the fs exit
code. -/
theorem fanOut_unlink_err (env : Env) :
    ∀ (names : List String) (w : World),
      (∃ n ∈ names, env.unlinkFail n = true) →
      (fanOut (fun w2 n => fsRepoUnlinkLog env w2 n) w names).1
        = Except.error (JsErr.withCode exitFsError) := by
  intro names
  induction names with
  | nil =>
    intro w hex
    simp at hex
  | cons x xs ih =>
    intro w hex
    by_cases hx : env.unlinkFail x = true
    · have hu : fsRepoUnlinkLog env w x = (Except.error (JsErr.withCode exitFsError),
          { fs := w.fs, remote := w.remote, logFiles := w.logFiles, trace := w.trace ++ [Ev.unlinkLog x] }) := by
        simp only [fsRepoUnlinkLog, hx]
        simp
      obtain ⟨r, lf, tr, hfo, _, _⟩ := fanOut_unlink_frame env xs
        { fs := w.fs, remote := w.remote, logFiles := w.logFiles, trace := w.trace ++ [Ev.unlinkLog x] }
      simp only [fanOut, hu, hfo]
    · have hxf : env.unlinkFail x = false := Bool.of_not_eq_true hx
      have hu : fsRepoUnlinkLog env w x = (Except.ok (),
          { fs := w.fs, remote := w.remote, logFiles := w.logFiles.filter (fun y => y ≠ x), trace := w.trace ++ [Ev.unlinkLog x] }) := by
        simp only [fsRepoUnlinkLog, hxf]
        simp
      rcases hex with ⟨n, hn, hfail⟩
      rcases List.mem_cons.mp hn with h | h
      · exact absurd (h ▸ hfail) hx
      · have hrec := ih
          { fs := w.fs, remote := w.remote, logFiles := w.logFiles.filter (fun y => y ≠ x), trace := w.trace ++ [Ev.unlinkLog x] }
          ⟨n, h, hfail⟩
        obtain ⟨r, lf, tr, hfo, _, _⟩ := fanOut_unlink_frame env xs
          { fs := w.fs, remote := w.remote, logFiles := w.logFiles.filter (fun y => y ≠ x), trace := w.trace ++ [Ev.unlinkLog x] }
        rw [hfo] at hrec
        simp only [fanOut, hu, hfo]
        simp at hrec
        rw [hrec]

/-- Cleanup under all-successful unlinks empties the logs directory. -/
theorem postCatchupCleanup_ok (env : Env) (hrd : env.readdirFail = false)
    (hun : ∀ n, env.unlinkFail n = false) :
    ∀ w : World, ∃ tr,
      postCatchupCleanup env w
        = (Except.ok (), { fs := w.fs, remote := w.remote, logFiles := [], trace := w.trace ++ tr }) ∧
      (∀ ev ∈ tr, ∃ n, ev = Ev.unlinkLog n) := by
  intro w
  obtain ⟨tr, hfo, htr⟩ := fanOut_unlink_ok env w.logFiles w (fun n _ => hun n)
  have hempty : removeList w.logFiles w.logFiles = [] :=
    removeList_nil_of_subset w.logFiles w.logFiles (fun x hx => hx)
  refine ⟨tr, ?_, htr⟩
  simp only [postCatchupCleanup, fsRepoReaddirLogs, hrd]
  simp only [Bool.false_eq_true, if_false, hfo, hempty]

/-- Cleanup with a failing unlink rethrows the fs error after a
best-effort updateAction FAILED, and touches neither the staging tree nor
the remote store. -/
theorem postCatchupCleanup_fail (env : Env) (hrd : env.readdirFail = false) :
    ∀ w : World, (∃ n ∈ w.logFiles, env.unlinkFail n = true) → ∃ lf tr,
      postCatchupCleanup env w
        = (Except.error (JsErr.withCode exitFsError), { fs := w.fs, remote := w.remote, logFiles := lf, trace := w.trace ++ tr }) ∧
      (∀ ev ∈ tr, (∃ n, ev = Ev.unlinkLog n) ∨ ev = Ev.updateActionFailed) := by
  intro w hex
  obtain ⟨r, lf, tr, hfo, htr, hrr⟩ := fanOut_unlink_frame env w.logFiles w
  have herr := fanOut_unlink_err env w.logFiles w hex
  rw [hfo] at herr
  simp at herr
  refine ⟨lf, tr ++ [Ev.updateActionFailed], ?_, ?_⟩
  · simp only [postCatchupCleanup, fsRepoReaddirLogs, hrd]
    simp only [Bool.false_eq_true, if_false, hfo, herr, updateActionFailed_world]
    simp [List.append_assoc]
  · intro ev hev
    rcases List.mem_append.mp hev with h | h
    · rcases htr ev h with ⟨n, hn⟩
      exact Or.inl ⟨n, hn⟩
    · rcases List.mem_cons.mp h with h | h
      · exact Or.inr h
      · simp at h

/-- For a non-null job with successful pull, tools, announce and publish
phases, startJob reduces to the commit-onward phases at the published
world: the staging tree holds the tool output, the remote store holds both
per-sequence artifacts and the advanced pointer. -/
theorem startJob_to_commitPhase (env : Env) (w : World) (P E a1 a2 : String)
    (s e : Str) (fs2 : List (String × String))
    (hres : env.reserveOk = true)
    (hmk : ∀ d, env.mkdirFail d = false)
    (hg : env.s3GetFail STATE_FILE = false)
    (hP : lookupMap w.remote STATE_FILE = some P)
    (hw1 : env.fsWriteFail osmdbtStatePath = false)
    (hw2 : env.fsWriteFail osmdbtStateBackupPath = false)
    (hr : env.fsReadFail osmdbtStatePath = false)
    (hgl : env.getLogOk = true)
    (hcd : env.createDiffOk = true)
    (hfs2 : env.createDiffFs (env.getLogFs
      (insertMap (insertMap w.fs osmdbtStatePath P) osmdbtStateBackupPath P)) = fs2)
    (hs : extractSequenceNumber P.data = some s)
    (hE : lookupMap fs2 osmdbtStatePath = some E)
    (he : extractSequenceNumber E.data = some e)
    (hneq : s ≠ e)
    (hca : env.createActionOk = true)
    (hr1 : env.fsReadFail (changesDir ++ "/" ++ diffStateKey e) = false)
    (hr2 : env.fsReadFail (changesDir ++ "/" ++ diffGzKey e) = false)
    (hp1 : env.s3PutFail (diffStateKey e) = false)
    (hp2 : env.s3PutFail (diffGzKey e) = false)
    (hp3 : env.s3PutFail STATE_FILE = false)
    (ha1 : lookupMap fs2 (changesDir ++ "/" ++ diffStateKey e) = some a1)
    (ha2 : lookupMap fs2 (changesDir ++ "/" ++ diffGzKey e) = some a2) :
    startJob env w = startJobCommitPhase env
      { fs := fs2, remote := insertMap (insertMap (insertMap w.remote (diffStateKey e) a1) (diffGzKey e) a2) STATE_FILE E, logFiles := w.logFiles ++ env.getLogNewLogs, trace := w.trace ++ [Ev.reserveAccess, Ev.s3Get STATE_FILE, Ev.getLog, Ev.createDiff, Ev.createAction (parseIntJS e), Ev.removeLock, Ev.s3Put (diffStateKey e), Ev.s3Put (diffGzKey e), Ev.s3Put STATE_FILE] } := by
  have hrun := startJob_run env w P E s e fs2 hres hmk hg hP hw1 hw2 hr hgl hcd
    hfs2 hs hE he
  rw [if_neg hneq] at hrun
  rw [hrun]
  have htail := startJobTail_run env e a1 a2 E hca hr1 hr2 hr hp1 hp2 hp3
    { fs := fs2, remote := w.remote, logFiles := w.logFiles ++ env.getLogNewLogs, trace := w.trace ++ [Ev.reserveAccess, Ev.s3Get STATE_FILE, Ev.getLog, Ev.createDiff] }
    (by dsimp only; exact ha1) (by dsimp only; exact ha2) (by dsimp only; exact hE)
  rw [htail]
  congr 1
  simp [List.append_assoc]

/-- Frame property of the rollback sub-protocol: only the remote store and
the trace can change, and the emitted events are the rollback marker and
possibly the pointer put. -/
theorem rollback_frame (env : Env) : ∀ w : World, ∃ r rm tr,
    rollback env w = (r, { fs := w.fs, remote := rm, logFiles := w.logFiles, trace := w.trace ++ tr }) ∧
    (∀ ev ∈ tr, ev = Ev.rollback ∨ ev = Ev.s3Put STATE_FILE) := by
  intro w
  by_cases hrb : env.fsReadFail osmdbtStateBackupPath = true
  · refine ⟨Except.error (JsErr.withCode exitRollbackFailureError), w.remote, [Ev.rollback], ?_, by simp⟩
    simp only [rollback, fsRepoReadFile, hrb]
    simp
  · have hrbf : env.fsReadFail osmdbtStateBackupPath = false := Bool.of_not_eq_true hrb
    cases hB : lookupMap w.fs osmdbtStateBackupPath with
    | none =>
      refine ⟨Except.error (JsErr.withCode exitRollbackFailureError), w.remote, [Ev.rollback], ?_, by simp⟩
      simp only [rollback, fsRepoReadFile, hrbf]
      simp [hB]
    | some B =>
      by_cases hpp : env.s3PutFail STATE_FILE = true
      · refine ⟨Except.error (JsErr.withCode exitRollbackFailureError), w.remote, [Ev.rollback, Ev.s3Put STATE_FILE], ?_, by simp⟩
        simp only [rollback, fsRepoReadFile, hrbf, s3PutObject, hpp]
        simp [hB, List.append_assoc]
      · have hppf : env.s3PutFail STATE_FILE = false := Bool.of_not_eq_true hpp
        refine ⟨Except.ok (), insertMap w.remote STATE_FILE B, [Ev.rollback, Ev.s3Put STATE_FILE], ?_, by simp⟩
        simp only [rollback, fsRepoReadFile, hrbf, s3PutObject, hppf]
        simp [hB, List.append_assoc]

/-- C2: for every non-null job whose commit phase fails in the catchup
tool (readdir and all marking renames succeed, the catchup tool fails),
the engine runs the rollback sub-protocol. When the rollback itself
succeeds it restores the remote pointer to the pre-job content P (whose
sequence number is sequenceStart), reports the action FAILED, and the
original commit error (the osmdbt exit code 100) propagates as the job
result. When the rollback fails (here: the backup read fails), the job
instead terminates with the rollback-failure exit code 104, superseding
the commit error. -/
theorem commit_failure_rollback (env : Env) (w : World) (P E a1 a2 : String)
    (s e : Str) (fs2 : List (String × String))
    (hres : env.reserveOk = true)
    (hmk : ∀ d, env.mkdirFail d = false)
    (hg : env.s3GetFail STATE_FILE = false)
    (hP : lookupMap w.remote STATE_FILE = some P)
    (hw1 : env.fsWriteFail osmdbtStatePath = false)
    (hw2 : env.fsWriteFail osmdbtStateBackupPath = false)
    (hr : env.fsReadFail osmdbtStatePath = false)
    (hgl : env.getLogOk = true)
    (hcd : env.createDiffOk = true)
    (hfs2 : env.createDiffFs (env.getLogFs
      (insertMap (insertMap w.fs osmdbtStatePath P) osmdbtStateBackupPath P)) = fs2)
    (hs : extractSequenceNumber P.data = some s)
    (hE : lookupMap fs2 osmdbtStatePath = some E)
    (he : extractSequenceNumber E.data = some e)
    (hneq : s ≠ e)
    (hca : env.createActionOk = true)
    (hr1 : env.fsReadFail (changesDir ++ "/" ++ diffStateKey e) = false)
    (hr2 : env.fsReadFail (changesDir ++ "/" ++ diffGzKey e) = false)
    (hp1 : env.s3PutFail (diffStateKey e) = false)
    (hp2 : env.s3PutFail (diffGzKey e) = false)
    (hp3 : env.s3PutFail STATE_FILE = false)
    (ha1 : lookupMap fs2 (changesDir ++ "/" ++ diffStateKey e) = some a1)
    (ha2 : lookupMap fs2 (changesDir ++ "/" ++ diffGzKey e) = some a2)
    (hrd : env.readdirFail = false)
    (hren : ∀ n, env.renameFail n = false)
    (hcat : env.catchupOk = false)
    (hbk : lookupMap fs2 osmdbtStateBackupPath = some P) :
    (env.fsReadFail osmdbtStateBackupPath = false →
      (startJob env w).1 = Except.error (JsErr.withCode exitOsmdbtError) ∧
      (executeJobRun env w).exitCode = exitOsmdbtError ∧
      lookupMap (startJob env w).2.remote STATE_FILE = some P ∧
      extractSequenceNumber P.data = some s ∧
      Ev.rollback ∈ (startJob env w).2.trace ∧
      Ev.updateActionFailed ∈ (startJob env w).2.trace) ∧
    (env.fsReadFail osmdbtStateBackupPath = true →
      (startJob env w).1 = Except.error (JsErr.withCode exitRollbackFailureError) ∧
      (executeJobRun env w).exitCode = exitRollbackFailureError ∧
      Ev.rollback ∈ (startJob env w).2.trace) := by
  have hrun := startJob_to_commitPhase env w P E a1 a2 s e fs2 hres hmk hg hP
    hw1 hw2 hr hgl hcd hfs2 hs hE he hneq hca hr1 hr2 hp1 hp2 hp3 ha1 ha2
  have hcm0 := commitChanges_run env hrd hren
    { fs := fs2, remote := insertMap (insertMap (insertMap w.remote (diffStateKey e) a1) (diffGzKey e) a2) STATE_FILE E, logFiles := w.logFiles ++ env.getLogNewLogs, trace := w.trace ++ [Ev.reserveAccess, Ev.s3Get STATE_FILE, Ev.getLog, Ev.createDiff, Ev.createAction (parseIntJS e), Ev.removeLock, Ev.s3Put (diffStateKey e), Ev.s3Put (diffGzKey e), Ev.s3Put STATE_FILE] }
  rcases hcm0 with ⟨lf, tr, hcm, hlen, hevtr⟩
  simp only [hcat, Bool.false_eq_true, if_false] at hcm
  constructor
  · intro hrb
    have hro := rollback_ok env P hrb hp3
      { fs := fs2, remote := insertMap (insertMap (insertMap w.remote (diffStateKey e) a1) (diffGzKey e) a2) STATE_FILE E, logFiles := lf, trace := (w.trace ++ [Ev.reserveAccess, Ev.s3Get STATE_FILE, Ev.getLog, Ev.createDiff, Ev.createAction (parseIntJS e), Ev.removeLock, Ev.s3Put (diffStateKey e), Ev.s3Put (diffGzKey e), Ev.s3Put STATE_FILE]) ++ tr }
      (by dsimp only; exact hbk)
    have hfin : startJob env w = (Except.error (JsErr.withCode exitOsmdbtError),
        { fs := fs2, remote := insertMap (insertMap (insertMap (insertMap w.remote (diffStateKey e) a1) (diffGzKey e) a2) STATE_FILE E) STATE_FILE P, logFiles := lf, trace := ((w.trace ++ [Ev.reserveAccess, Ev.s3Get STATE_FILE, Ev.getLog, Ev.createDiff, Ev.createAction (parseIntJS e), Ev.removeLock, Ev.s3Put (diffStateKey e), Ev.s3Put (diffGzKey e), Ev.s3Put STATE_FILE]) ++ tr) ++ [Ev.rollback, Ev.s3Put STATE_FILE, Ev.updateActionFailed] }) := by
      rw [hrun]
      simp only [startJobCommitPhase, hcm, hro, updateActionFailed_world]
      simp [List.append_assoc]
    refine ⟨by rw [hfin], ?_, ?_, hs, ?_, ?_⟩
    · simp [executeJobRun, hfin, classifyErr]
    · rw [hfin]
      exact lookupMap_insert_self _ _ _
    · rw [hfin]
      simp
    · rw [hfin]
      simp
  · intro hrb
    have hro := rollback_readFail env hrb
      { fs := fs2, remote := insertMap (insertMap (insertMap w.remote (diffStateKey e) a1) (diffGzKey e) a2) STATE_FILE E, logFiles := lf, trace := (w.trace ++ [Ev.reserveAccess, Ev.s3Get STATE_FILE, Ev.getLog, Ev.createDiff, Ev.createAction (parseIntJS e), Ev.removeLock, Ev.s3Put (diffStateKey e), Ev.s3Put (diffGzKey e), Ev.s3Put STATE_FILE]) ++ tr }
    have hfin : startJob env w = (Except.error (JsErr.withCode exitRollbackFailureError),
        { fs := fs2, remote := insertMap (insertMap (insertMap w.remote (diffStateKey e) a1) (diffGzKey e) a2) STATE_FILE E, logFiles := lf, trace := ((w.trace ++ [Ev.reserveAccess, Ev.s3Get STATE_FILE, Ev.getLog, Ev.createDiff, Ev.createAction (parseIntJS e), Ev.removeLock, Ev.s3Put (diffStateKey e), Ev.s3Put (diffGzKey e), Ev.s3Put STATE_FILE]) ++ tr) ++ [Ev.rollback, Ev.updateActionFailed] }) := by
      rw [hrun]
      simp only [startJobCommitPhase, hcm, hro, updateActionFailed_world]
      simp [List.append_assoc]
    refine ⟨by rw [hfin], ?_, ?_⟩
    · simp [executeJobRun, hfin, classifyErr]
    · rw [hfin]
      simp

/-- Witness for C2 on a concrete job whose catchup tool fails: the commit
error 100 propagates, the pointer is rolled back to the pre-job content,
and the rollback marker is in the trace. -/
theorem commit_failure_rollback_witness :
    (startJob { happyEnv with catchupOk := false } startWorld).1
        = Except.error (JsErr.withCode exitOsmdbtError) ∧
    (executeJobRun { happyEnv with catchupOk := false } startWorld).exitCode
        = exitOsmdbtError ∧
    lookupMap (startJob { happyEnv with catchupOk := false } startWorld).2.remote
        STATE_FILE = some "sequenceNumber=665" ∧
    Ev.rollback ∈ (startJob { happyEnv with catchupOk := false } startWorld).2.trace := by
  have h := commit_failure_rollback { happyEnv with catchupOk := false } startWorld
    "sequenceNumber=665" "sequenceNumber=667" "sequenceNumber=667" "diffdata"
    (("665").data) (("667").data)
    (insertMap (insertMap (insertMap
      (insertMap (insertMap [] osmdbtStatePath "sequenceNumber=665")
        osmdbtStateBackupPath "sequenceNumber=665")
      osmdbtStatePath "sequenceNumber=667")
      "changes/000/000/667.state.txt" "sequenceNumber=667")
      "changes/000/000/667.osc.gz" "diffdata")
    rfl (fun d => rfl) rfl rfl rfl rfl rfl rfl rfl rfl (by rfl) rfl (by rfl)
    (by decide) rfl rfl rfl (by decide) (by decide) rfl (by decide) (by decide)
    rfl (fun n => rfl) rfl (by decide)
  have hA := h.1 rfl
  exact ⟨hA.1, hA.2.1, hA.2.2.1, hA.2.2.2.2.1⟩

/-- C8: the post-catchup cleanup runs only after the catchup tool has
succeeded and unlinks every entry of the logs directory; an error during
this cleanup fails the job with the FSError exit code 107, never triggers
the rollback sub-protocol, and leaves the remote pointer at the published
sequenceEnd content. When the catchup tool fails, no unlink is ever
attempted. -/
theorem post_catchup_cleanup_spec (env : Env) (w : World) (P E a1 a2 : String)
    (s e : Str) (fs2 : List (String × String))
    (hres : env.reserveOk = true)
    (hmk : ∀ d, env.mkdirFail d = false)
    (hg : env.s3GetFail STATE_FILE = false)
    (hP : lookupMap w.remote STATE_FILE = some P)
    (hw1 : env.fsWriteFail osmdbtStatePath = false)
    (hw2 : env.fsWriteFail osmdbtStateBackupPath = false)
    (hr : env.fsReadFail osmdbtStatePath = false)
    (hgl : env.getLogOk = true)
    (hcd : env.createDiffOk = true)
    (hfs2 : env.createDiffFs (env.getLogFs
      (insertMap (insertMap w.fs osmdbtStatePath P) osmdbtStateBackupPath P)) = fs2)
    (hs : extractSequenceNumber P.data = some s)
    (hE : lookupMap fs2 osmdbtStatePath = some E)
    (he : extractSequenceNumber E.data = some e)
    (hneq : s ≠ e)
    (hca : env.createActionOk = true)
    (hr1 : env.fsReadFail (changesDir ++ "/" ++ diffStateKey e) = false)
    (hr2 : env.fsReadFail (changesDir ++ "/" ++ diffGzKey e) = false)
    (hp1 : env.s3PutFail (diffStateKey e) = false)
    (hp2 : env.s3PutFail (diffGzKey e) = false)
    (hp3 : env.s3PutFail STATE_FILE = false)
    (ha1 : lookupMap fs2 (changesDir ++ "/" ++ diffStateKey e) = some a1)
    (ha2 : lookupMap fs2 (changesDir ++ "/" ++ diffGzKey e) = some a2)
    (hrd : env.readdirFail = false)
    (hren : ∀ n, env.renameFail n = false)
    (htr : w.trace = []) :
    (env.catchupOk = true → (∀ n, env.unlinkFail n = false) →
      env.updateActionOk = true →
      (startJob env w).1 = Except.ok () ∧
      (startJob env w).2.logFiles = [] ∧
      lookupMap (startJob env w).2.remote STATE_FILE = some E) ∧
    (env.catchupOk = true → (∀ n, env.unlinkFail n = true) →
      w.logFiles ++ env.getLogNewLogs ≠ [] →
      (startJob env w).1 = Except.error (JsErr.withCode exitFsError) ∧
      (executeJobRun env w).exitCode = exitFsError ∧
      Ev.rollback ∉ (startJob env w).2.trace ∧
      lookupMap (startJob env w).2.remote STATE_FILE = some E) ∧
    (env.catchupOk = false →
      ∀ n, Ev.unlinkLog n ∉ (startJob env w).2.trace) := by
  have hrun := startJob_to_commitPhase env w P E a1 a2 s e fs2 hres hmk hg hP
    hw1 hw2 hr hgl hcd hfs2 hs hE he hneq hca hr1 hr2 hp1 hp2 hp3 ha1 ha2
  have hcm0 := commitChanges_run env hrd hren
    { fs := fs2, remote := insertMap (insertMap (insertMap w.remote (diffStateKey e) a1) (diffGzKey e) a2) STATE_FILE E, logFiles := w.logFiles ++ env.getLogNewLogs, trace := w.trace ++ [Ev.reserveAccess, Ev.s3Get STATE_FILE, Ev.getLog, Ev.createDiff, Ev.createAction (parseIntJS e), Ev.removeLock, Ev.s3Put (diffStateKey e), Ev.s3Put (diffGzKey e), Ev.s3Put STATE_FILE] }
  rcases hcm0 with ⟨lf, tr, hcm, hlen, hevtr⟩
  refine ⟨?_, ?_, ?_⟩
  · intro hcat hun hua
    simp only [hcat, if_true] at hcm
    obtain ⟨tr2, hpc, htr2⟩ := postCatchupCleanup_ok env hrd hun
      { fs := fs2, remote := insertMap (insertMap (insertMap w.remote (diffStateKey e) a1) (diffGzKey e) a2) STATE_FILE E, logFiles := lf, trace := (w.trace ++ [Ev.reserveAccess, Ev.s3Get STATE_FILE, Ev.getLog, Ev.createDiff, Ev.createAction (parseIntJS e), Ev.removeLock, Ev.s3Put (diffStateKey e), Ev.s3Put (diffGzKey e), Ev.s3Put STATE_FILE]) ++ tr }
    have hfin : startJob env w = (Except.ok (),
        { fs := fs2, remote := insertMap (insertMap (insertMap w.remote (diffStateKey e) a1) (diffGzKey e) a2) STATE_FILE E, logFiles := [], trace := (((w.trace ++ [Ev.reserveAccess, Ev.s3Get STATE_FILE, Ev.getLog, Ev.createDiff, Ev.createAction (parseIntJS e), Ev.removeLock, Ev.s3Put (diffStateKey e), Ev.s3Put (diffGzKey e), Ev.s3Put STATE_FILE]) ++ tr) ++ tr2) ++ [Ev.collectInfo, Ev.updateActionCompleted] }) := by
      rw [hrun]
      simp only [startJobCommitPhase, hcm, hpc, osmiumFileInfo_world]
      simp [mediatorUpdateActionCompleted, hua, List.append_assoc]
    refine ⟨by rw [hfin], by rw [hfin], ?_⟩
    rw [hfin]
    exact lookupMap_insert_self _ _ _
  · intro hcat hun hne
    simp only [hcat, if_true] at hcm
    have hex : ∃ n ∈ lf, env.unlinkFail n = true := by
      cases lfc : lf with
      | nil =>
        have hlen2 : lf.length = (w.logFiles ++ env.getLogNewLogs).length := hlen
        have hlen0 : (w.logFiles ++ env.getLogNewLogs).length = 0 := by
          rw [← hlen2, lfc]
          rfl
        exact absurd (List.length_eq_zero.mp hlen0) hne
      | cons a t =>
        exact ⟨a, List.mem_cons_self a t, hun a⟩
    obtain ⟨lf2, tr2, hpc, htr2⟩ := postCatchupCleanup_fail env hrd
      { fs := fs2, remote := insertMap (insertMap (insertMap w.remote (diffStateKey e) a1) (diffGzKey e) a2) STATE_FILE E, logFiles := lf, trace := (w.trace ++ [Ev.reserveAccess, Ev.s3Get STATE_FILE, Ev.getLog, Ev.createDiff, Ev.createAction (parseIntJS e), Ev.removeLock, Ev.s3Put (diffStateKey e), Ev.s3Put (diffGzKey e), Ev.s3Put STATE_FILE]) ++ tr }
      hex
    have hfin : startJob env w = (Except.error (JsErr.withCode exitFsError),
        { fs := fs2, remote := insertMap (insertMap (insertMap w.remote (diffStateKey e) a1) (diffGzKey e) a2) STATE_FILE E, logFiles := lf2, trace := ((w.trace ++ [Ev.reserveAccess, Ev.s3Get STATE_FILE, Ev.getLog, Ev.createDiff, Ev.createAction (parseIntJS e), Ev.removeLock, Ev.s3Put (diffStateKey e), Ev.s3Put (diffGzKey e), Ev.s3Put STATE_FILE]) ++ tr) ++ tr2 }) := by
      rw [hrun]
      simp only [startJobCommitPhase, hcm, hpc]
    refine ⟨by rw [hfin], ?_, ?_, ?_⟩
    · simp [executeJobRun, hfin, classifyErr]
    · rw [hfin, htr]
      intro hmem
      rcases List.mem_append.mp hmem with h | h
      · rcases List.mem_append.mp h with h | h
        · rcases List.mem_append.mp h with h | h
          · exact absurd h (List.not_mem_nil _)
          · simp at h
        · rcases hevtr _ h with h1 | ⟨a, b, h1⟩
          · exact Ev.noConfusion h1
          · exact Ev.noConfusion h1
      · rcases htr2 _ h with ⟨n, h1⟩ | h1
        · exact Ev.noConfusion h1
        · exact Ev.noConfusion h1
    · rw [hfin]
      exact lookupMap_insert_self _ _ _
  · intro hcat
    simp only [hcat, Bool.false_eq_true, if_false] at hcm
    obtain ⟨r, rm, tr3, hrf, htr3⟩ := rollback_frame env
      { fs := fs2, remote := insertMap (insertMap (insertMap w.remote (diffStateKey e) a1) (diffGzKey e) a2) STATE_FILE E, logFiles := lf, trace := (w.trace ++ [Ev.reserveAccess, Ev.s3Get STATE_FILE, Ev.getLog, Ev.createDiff, Ev.createAction (parseIntJS e), Ev.removeLock, Ev.s3Put (diffStateKey e), Ev.s3Put (diffGzKey e), Ev.s3Put STATE_FILE]) ++ tr }
    have hfin : (startJob env w).2.trace
        = ((w.trace ++ [Ev.reserveAccess, Ev.s3Get STATE_FILE, Ev.getLog, Ev.createDiff, Ev.createAction (parseIntJS e), Ev.removeLock, Ev.s3Put (diffStateKey e), Ev.s3Put (diffGzKey e), Ev.s3Put STATE_FILE]) ++ tr) ++ (tr3 ++ [Ev.updateActionFailed]) := by
      rw [hrun]
      cases r with
      | ok u =>
        simp only [startJobCommitPhase, hcm, hrf, updateActionFailed_world]
        simp [List.append_assoc]
      | error e2 =>
        simp only [startJobCommitPhase, hcm, hrf, updateActionFailed_world]
        simp [List.append_assoc]
    intro n hmem
    rw [hfin, htr] at hmem
    rcases List.mem_append.mp hmem with h | h
    · rcases List.mem_append.mp h with h | h
      · rcases List.mem_append.mp h with h | h
        · exact absurd h (List.not_mem_nil _)
        · simp at h
      · rcases hevtr _ h with h1 | ⟨a, b, h1⟩
        · exact Ev.noConfusion h1
        · exact Ev.noConfusion h1
    · rcases List.mem_append.mp h with h | h
      · rcases htr3 _ h with h1 | h1
        · exact Ev.noConfusion h1
        · exact Ev.noConfusion h1
      · rcases List.mem_cons.mp h with h1 | h1
        · exact Ev.noConfusion h1
        · exact absurd h1 (List.not_mem_nil _)

/-- Witness for C8 on a concrete job where every unlink of the cleanup
fails: the job fails with the fs exit code 107, no rollback happens, and
the remote pointer stays at the published content. -/
theorem post_catchup_cleanup_spec_witness :
    (startJob { happyEnv with unlinkFail := fun _ => true } startWorld).1
        = Except.error (JsErr.withCode exitFsError) ∧
    (executeJobRun { happyEnv with unlinkFail := fun _ => true } startWorld).exitCode
        = exitFsError ∧
    Ev.rollback ∉ (startJob { happyEnv with unlinkFail := fun _ => true } startWorld).2.trace ∧
    lookupMap (startJob { happyEnv with unlinkFail := fun _ => true } startWorld).2.remote
        STATE_FILE = some "sequenceNumber=667" := by
  have h := post_catchup_cleanup_spec { happyEnv with unlinkFail := fun _ => true }
    startWorld "sequenceNumber=665" "sequenceNumber=667" "sequenceNumber=667" "diffdata"
    (("665").data) (("667").data)
    (insertMap (insertMap (insertMap
      (insertMap (insertMap [] osmdbtStatePath "sequenceNumber=665")
        osmdbtStateBackupPath "sequenceNumber=665")
      osmdbtStatePath "sequenceNumber=667")
      "changes/000/000/667.state.txt" "sequenceNumber=667")
      "changes/000/000/667.osc.gz" "diffdata")
    rfl (fun d => rfl) rfl rfl rfl rfl rfl rfl rfl rfl (by rfl) rfl (by rfl)
    (by decide) rfl rfl rfl (by decide) (by decide) rfl (by decide) (by decide)
    rfl (fun n => rfl) rfl
  exact h.2.1 rfl (fun n => rfl) (by decide)

/-- C3: refuted on the cited getStateFileFromS3ToFs of
src/s3/s3Manager.ts. On a concrete pull of the pointer content
sequenceNumber=665 with the working path changes/state.txt and the backup
path changes/backup/state.txt, the call resolves successfully and the
working copy holds the pulled content, yet the backup copy was never
created: the map over [path, backupPath] binds filePath but the body
passes the outer path to writeFile, so both iterations write the working
path. The same pull through the executeJob engine's pullStateFile writes
both copies, as the claim states. -/
theorem pull_writes_backup :
    (getStateFileFromS3ToFs happyEnv startWorld osmdbtStatePath osmdbtStateBackupPath).1
        = Except.ok () ∧
    lookupMap (getStateFileFromS3ToFs happyEnv startWorld osmdbtStatePath osmdbtStateBackupPath).2.fs
        osmdbtStatePath = some "sequenceNumber=665" ∧
    lookupMap (getStateFileFromS3ToFs happyEnv startWorld osmdbtStatePath osmdbtStateBackupPath).2.fs
        osmdbtStateBackupPath = none ∧
    lookupMap (pullStateFile happyEnv startWorld).2.fs
        osmdbtStatePath = some "sequenceNumber=665" ∧
    lookupMap (pullStateFile happyEnv startWorld).2.fs
        osmdbtStateBackupPath = some "sequenceNumber=665" := by
  refine ⟨rfl, by decide, by decide, by decide, by decide⟩

end Osmdbt
